import Mathlib

/-!
# GameOfLife: a verification development for `GameOfLife.hpp`

The class `GameOfLife` owns one data member, `theSociety`, a
`std::vector<std::vector<bool>>`.  It is embedded as a list of rows, each a list
of booleans.  Every member function is translated to a pure function on that
state; the mutating ones (`growCellAt`, `update`) return the new state.

Modelling conventions:

* `unsigned long` arguments and vector sizes are natural numbers.
* `int` is the 32-bit signed integer.  A vector size stored in an `int`
  (`maxRow`, `maxCol` in `neighborCount`, `numRows`, `numCols` in `update`) goes
  through `toInt32`, the reduction modulo `2^32` into `-2^31 .. 2^31 - 1`; a
  size of `2^31` or more does not survive it.
* The additions `row + i` and `col + j` of `neighborCount` are exact.  In C++
  they overflow only when an argument is the largest or the smallest `int`,
  which is undefined there; no theorem below is about such an argument.
* An `int` passed where `unsigned long` is expected (the calls to `cellAt` in
  `neighborCount` and `update`) is converted: a non-negative value keeps its
  value, a negative value becomes a number of at least `2^64 - 2^31`, larger
  than the size of any vector, so the bounds test of `cellAt` fails on it.
* `theSociety[0]` on a grid without rows is undefined in C++; the model reads
  an empty row there.  The theorems about `neighborCount`, `update` and
  `toString` are about grids with at least one row and one column.
-/

/-- The state of a `GameOfLife` object: the data member `theSociety`. -/
structure GameOfLife where
  theSociety : List (List Bool)
deriving DecidableEq, Repr

namespace GameOfLife

/-- The conversion of an integer value to the 32-bit `int`: the value modulo `2^32`
taken in `-2^31 .. 2^31 - 1` (here `2^31 = 2147483648`, `2^32 = 4294967296`). -/
def toInt32 (n : Int) : Int :=
  (n + 2147483648) % 4294967296 - 2147483648

/-- The constructor `GameOfLife(rows, cols)`: `rows` rows of `cols` cells, all `false`. -/
def construct (rows cols : Nat) : GameOfLife :=
  ⟨List.replicate rows (List.replicate cols false)⟩

/-- The assignment `society[row][col] = v` on a vector of vectors.  The source only
performs it at positions inside the vectors; outside, the model leaves the value
unchanged. -/
def assign (society : List (List Bool)) (row col : Nat) (v : Bool) : List (List Bool) :=
  society.set row ((society.getD row []).set col v)

/-- The member function `growCellAt(row, col)`.  The two nested tests are the
short-circuit `&&` of the source: `theSociety[row]` is read only once `row` is
known to be inside the outer vector. -/
def growCellAt (g : GameOfLife) (row col : Nat) : GameOfLife :=
  if h : row < g.theSociety.length then
    if col < g.theSociety[row].length then
      ⟨assign g.theSociety row col true⟩
    else g
  else g

/-- The member function `cellAt(row, col)`.  Both vector reads carry the bound
established by the test that guards them; every other path returns `false`. -/
def cellAt (g : GameOfLife) (row col : Nat) : Bool :=
  if h : row < g.theSociety.length then
    if h2 : col < g.theSociety[row].length then
      g.theSociety[row][col]
    else false
  else false

/-- The call `cellAt(x, y)` with `int` arguments, which C++ converts to
`unsigned long`: a negative argument becomes a value beyond every vector size,
so the bounds test fails and the result is `false`. -/
def cellAtInt (g : GameOfLife) (x y : Int) : Bool :=
  if x < 0 ∨ y < 0 then false else g.cellAt x.toNat y.toNat

/-- The member function `toString()`: the characters appended to `retString`. -/
def toString (g : GameOfLife) : String :=
  g.theSociety.foldl
    (fun retString row =>
      (row.foldl
        (fun retString col => if col then retString ++ "O" else retString ++ ".")
        retString) ++ "\n")
    ""

/-- The member function `neighborCount(row, col)`: both loops run over the
offsets `-1, 0, 1`, and `count` is threaded through them.  `maxRow` and `maxCol`
are `int` variables holding `size() - 1`. -/
def neighborCount (g : GameOfLife) (row col : Int) : Int :=
  let maxRow : Int := toInt32 ((g.theSociety.length : Int) - 1)
  let maxCol : Int := toInt32 (((g.theSociety.getD 0 []).length : Int) - 1)
  [-1, 0, 1].foldl
    (fun count i =>
      let x : Int := if row + i < 0 then maxRow else if row + i > maxRow then 0 else row + i
      [-1, 0, 1].foldl
        (fun count j =>
          let y : Int := if col + j < 0 then maxCol else if col + j > maxCol then 0 else col + j
          if ¬ (x = row ∧ y = col) then
            if g.cellAtInt x y then count + 1 else count
          else count)
        count)
    0

/-- The body of the inner loop of `update()` at position `(i, j)`: it reads the
copy `t0` and writes to the society being rebuilt. -/
def updateCell (t0 : GameOfLife) (society : List (List Bool)) (i j : Nat) : List (List Bool) :=
  if t0.cellAtInt i j then
    if t0.neighborCount i j < 2 ∨ t0.neighborCount i j > 3 then
      assign society i j false
    else society
  else
    if t0.neighborCount i j = 3 then
      assign society i j true
    else society

/-- The member function `update()`.  `t0` is the copy taken on entry; `numRows` and
`numCols` are `int` variables holding the sizes, and the two loops run `i` over
`0 .. numRows - 1` and `j` over `0 .. numCols - 1` (no iteration when the bound is
not positive). -/
def update (g : GameOfLife) : GameOfLife :=
  let t0 := g
  let numRows : Int := toInt32 (g.theSociety.length : Int)
  let numCols : Int := toInt32 ((g.theSociety.getD 0 []).length : Int)
  ⟨(List.range numRows.toNat).foldl
    (fun society i =>
      (List.range numCols.toNat).foldl (fun society j => updateCell t0 society i j) society)
    g.theSociety⟩

/-- One call a client makes on a grid after constructing it. -/
inductive Call where
  | growCellAt (row col : Nat)
  | update
deriving DecidableEq, Repr

/-- The grid after one call. -/
def perform (g : GameOfLife) : Call → GameOfLife
  | Call.growCellAt row col => g.growCellAt row col
  | Call.update => g.update

/-- The grid after a sequence of calls, made in order. -/
def performAll (g : GameOfLife) (calls : List Call) : GameOfLife :=
  calls.foldl perform g

/-- The grid is rectangular with the given dimensions: exactly `rows` rows, each of
exactly `cols` cells. -/
def Rect (g : GameOfLife) (rows cols : Nat) : Prop :=
  g.theSociety.length = rows ∧ ∀ r ∈ g.theSociety, r.length = cols

instance (g : GameOfLife) (rows cols : Nat) : Decidable (g.Rect rows cols) := by
  unfold Rect
  infer_instance

/-- The stored value at `(r, c)`, read with defaults outside the vectors. -/
def peek (society : List (List Bool)) (r c : Nat) : Bool :=
  (society.getD r []).getD c false

/-- The nine offset pairs `(di, dj)` with `di, dj` in `{-1, 0, 1}`, in the order in
which the two loops of `neighborCount` visit them. -/
def offsets : List (Int × Int) :=
  [(-1, -1), (-1, 0), (-1, 1), (0, -1), (0, 0), (0, 1), (1, -1), (1, 0), (1, 1)]

/-- The wrap of a coordinate `v` against a dimension `n`, in the words of the
specification: to `n - 1` if `v < 0`, to `0` if `v > n - 1`, otherwise `v` itself. -/
def wrapTo (v : Int) (n : Nat) : Int :=
  if v < 0 then (n : Int) - 1 else if v > (n : Int) - 1 then 0 else v

/-- The wrap made inline in `neighborCount`: `m` if `v < 0`, `0` if `v > m`, otherwise
`v` itself, where `m` is `maxRow` or `maxCol`. -/
def wrapInt (v m : Int) : Int :=
  if v < 0 then m else if v > m then 0 else v

/-- The number of offset pairs `(di, dj)` whose position `(x, y)`, wrapped against
`maxRow` and `maxCol`, differs from `(row, col)` and has `cellAt(x, y)` true. -/
def visitCount (g : GameOfLife) (maxRow maxCol row col : Int) : Nat :=
  offsets.countP (fun d =>
    decide (¬ (wrapInt (row + d.1) maxRow = row ∧ wrapInt (col + d.2) maxCol = col)) &&
      g.cellAtInt (wrapInt (row + d.1) maxRow) (wrapInt (col + d.2) maxCol))

/-- The grid built by the constructor followed by one `growCellAt` call per listed
position, in order. -/
def seeded (rows cols : Nat) (cells : List (Nat × Nat)) : GameOfLife :=
  cells.foldl (fun g p => g.growCellAt p.1 p.2) (construct rows cols)

/-- The neighbour count in the words of the specification: the number of offset
pairs `(di, dj)`, other than `(0, 0)`, for which `cellAt(x, y)` is true, where `x`
is `row + di` wrapped against `rows` and `y` is `col + dj` wrapped against `cols`. -/
def specNeighborCount (g : GameOfLife) (rows cols : Nat) (row col : Int) : Nat :=
  offsets.countP (fun d =>
    decide (d ≠ (0, 0)) &&
      g.cellAtInt (wrapTo (row + d.1) rows) (wrapTo (col + d.2) cols))

/-- The neighbour count with the exclusion made on the wrapped position instead of
on the offset: the number of offset pairs `(di, dj)` whose wrapped position `(x, y)`
differs from `(row, col)` and for which `cellAt(x, y)` is true. -/
def wrappedNeighborCount (g : GameOfLife) (rows cols : Nat) (row col : Int) : Nat :=
  offsets.countP (fun d =>
    decide (¬ (wrapTo (row + d.1) rows = row ∧ wrapTo (col + d.2) cols = col)) &&
      g.cellAtInt (wrapTo (row + d.1) rows) (wrapTo (col + d.2) cols))

/-- The character `toString()` appends for one cell. -/
def cellChar (b : Bool) : Char :=
  if b then 'O' else '.'

/-- The characters `toString()` appends for one row: one per cell and a newline. -/
def rowChars (row : List Bool) : List Char :=
  row.map cellChar ++ ['\n']

/-- The blinker of the specification: a 5 by 5 grid whose live cells are `(2, 1)`,
`(2, 2)` and `(2, 3)`. -/
def blinker : GameOfLife :=
  (((construct 5 5).growCellAt 2 1).growCellAt 2 2).growCellAt 2 3

/-- A grid of one row and three columns whose only live cell is `(0, 1)`. -/
def singleRow : GameOfLife :=
  (construct 1 3).growCellAt 0 1

/-- A grid of one row and one column whose cell is live. -/
def singleCell : GameOfLife :=
  (construct 1 1).growCellAt 0 0

/-- Two societies have the same number of rows and, row by row, the same number
of cells. -/
def SameShape (s t : List (List Bool)) : Prop :=
  s.length = t.length ∧ ∀ r, (s.getD r []).length = (t.getD r []).length

/-- The value `update()` leaves at `(i, j)` when the stored value there is `cur`
at the moment the loop reaches it. -/
def nextValue (t0 : GameOfLife) (i j : Nat) (cur : Bool) : Bool :=
  if t0.cellAtInt i j then
    if t0.neighborCount i j < 2 ∨ t0.neighborCount i j > 3 then false else cur
  else
    if t0.neighborCount i j = 3 then true else cur

/-- The grid drawn in the comment above `neighborCount`: 5 rows by 9 columns, built
by the constructor and nine `growCellAt` calls. -/
def documented : GameOfLife :=
  (construct 5 9).performAll
    [Call.growCellAt 0 5, Call.growCellAt 0 8, Call.growCellAt 1 0, Call.growCellAt 2 0,
      Call.growCellAt 2 8, Call.growCellAt 3 0, Call.growCellAt 3 8, Call.growCellAt 4 4,
      Call.growCellAt 4 6]

/-- A grid of two rows and two columns with all four cells live. -/
def crowded : GameOfLife :=
  (construct 2 2).performAll
    [Call.growCellAt 0 0, Call.growCellAt 0 1, Call.growCellAt 1 0, Call.growCellAt 1 1]

/-- The row (or column) visited at offset `-1` from an in-range `r` on an axis of
length `n`: the last one when `r` is the first, otherwise the one before. -/
def before (n r : Nat) : Nat :=
  if r = 0 then n - 1 else r - 1

/-- The row (or column) visited at offset `+1` from an in-range `r` on an axis of
length `n`: the first one when `r` is the last, otherwise the one after. -/
def after (n r : Nat) : Nat :=
  if r + 1 < n then r + 1 else 0

/-- What the visited position `(x, y)` adds to `neighborCount(r, c)`. -/
def contribution (g : GameOfLife) (r c x y : Nat) : Nat :=
  if ¬ (x = r ∧ y = c) ∧ g.cellAt x y = true then 1 else 0

/-- Among the three rows (or columns) visited from `r`, how many satisfy `A`. -/
def cnt3 (A : Nat → Prop) [DecidablePred A] (n r : Nat) : Nat :=
  (if A (before n r) then 1 else 0) + (if A r then 1 else 0) + (if A (after n r) then 1 else 0)

/-- Among the three rows (or columns) visited from `r`, how many are `r` itself: all
three on an axis of length 1, otherwise one. -/
def selfCount (n : Nat) : Nat :=
  if n = 1 then 3 else 1

/-- The live cells among the `rows` by `cols` positions of the grid are exactly the
listed ones. -/
def LiveExactly (g : GameOfLife) (rows cols : Nat) (cells : List (Nat × Nat)) : Prop :=
  ∀ x, x < rows → ∀ y, y < cols → (g.cellAt x y = true ↔ (x, y) ∈ cells)

instance (g : GameOfLife) (rows cols : Nat) (cells : List (Nat × Nat)) :
    Decidable (g.LiveExactly rows cols cells) := by
  unfold LiveExactly
  infer_instance

/-- The block of the specification on a 4 by 4 grid: live cells `(1, 1)`, `(1, 2)`,
`(2, 1)` and `(2, 2)`. -/
def block : GameOfLife :=
  (construct 4 4).performAll
    [Call.growCellAt 1 1, Call.growCellAt 1 2, Call.growCellAt 2 1, Call.growCellAt 2 2]

/-- A grid of one row and `2^31` columns whose only live cell is `(0, 0)`. -/
def wideCell : GameOfLife :=
  seeded 1 2147483648 [(0, 0)]

/-- A grid of one row and `2^31 + 1` columns whose only live cell is `(0, 0)`. -/
def widerCell : GameOfLife :=
  seeded 1 2147483649 [(0, 0)]

/-- A grid of one row and `2^31 + 1` columns whose only live cell is `(0, 5)`. -/
def widerCellAtFive : GameOfLife :=
  seeded 1 2147483649 [(0, 5)]

/-- The horizontal blinker on a grid of 5 rows and `2^31` columns. -/
def wideBlinker : GameOfLife :=
  seeded 5 2147483648 [(2, 1), (2, 2), (2, 3)]

/-- The block `(1,3)`, `(1,4)`, `(2,3)`, `(2,4)` on a grid of 4 rows and `2^32 + 4`
columns. -/
def wideBlock : GameOfLife :=
  seeded 4 4294967300 [(1, 3), (1, 4), (2, 3), (2, 4)]

/-- Whether the position `(x, y)`, given as `int` values, is one of the listed cells
of a `rows` by `cols` grid. -/
def seededAt (rows cols : Nat) (cells : List (Nat × Nat)) (x y : Int) : Bool :=
  decide (0 ≤ x ∧ 0 ≤ y ∧ (x.toNat, y.toNat) ∈ cells ∧ x.toNat < rows ∧ y.toNat < cols)

/-- The count `visitCount` makes when `cellAt` is read off the list of seeded cells. -/
def seededVisitCount (rows cols : Nat) (cells : List (Nat × Nat))
    (maxRow maxCol row col : Int) : Nat :=
  offsets.countP (fun d =>
    decide (¬ (wrapInt (row + d.1) maxRow = row ∧ wrapInt (col + d.2) maxCol = col)) &&
      seededAt rows cols cells (wrapInt (row + d.1) maxRow) (wrapInt (col + d.2) maxCol))

/-! ## Reading and writing single cells -/

theorem getD_row_of_lt (s : List (List Bool)) (r : Nat) (h : r < s.length) :
    s.getD r [] = s[r] := by
  simp [List.getElem?_eq_getElem h]

theorem set_getElem_same (s : List (List Bool)) (r : Nat) (h : r < s.length) :
    s.set r s[r] = s := by
  apply List.ext_getElem?
  intro n
  by_cases hn : r = n
  · subst hn
    rw [List.getElem?_set_self h, List.getElem?_eq_getElem h]
  · simp [List.getElem?_set_ne hn]

theorem cellAt_eq_peek (g : GameOfLife) (r c : Nat) :
    g.cellAt r c = peek g.theSociety r c := by
  unfold cellAt peek
  by_cases hr : r < g.theSociety.length
  · rw [getD_row_of_lt _ _ hr]
    by_cases hc : c < g.theSociety[r].length
    · simp [hr, hc, List.getElem?_eq_getElem hc]
    · have h1 : g.theSociety[r].length ≤ c := by omega
      simp [hr, hc, List.getElem?_eq_none h1]
  · have h1 : g.theSociety.length ≤ r := by omega
    simp [hr, List.getElem?_eq_none h1]

theorem growCellAt_theSociety (g : GameOfLife) (r c : Nat) :
    (g.growCellAt r c).theSociety = assign g.theSociety r c true := by
  unfold growCellAt
  by_cases hr : r < g.theSociety.length
  · by_cases hc : c < g.theSociety[r].length
    · simp [hr, hc]
    · have h1 : g.theSociety[r].length ≤ c := by omega
      simp only [hr, hc, dif_pos, if_false]
      unfold assign
      rw [getD_row_of_lt _ _ hr, List.set_eq_of_length_le h1]
      exact (set_getElem_same _ _ hr).symm
  · have h1 : g.theSociety.length ≤ r := by omega
    simp only [hr, dif_neg, not_false_eq_true]
    unfold assign
    rw [List.set_eq_of_length_le h1]

theorem Rect.rowLength {g : GameOfLife} {rows cols : Nat} (hg : g.Rect rows cols)
    {r : Nat} (hr : r < rows) : (g.theSociety.getD r []).length = cols := by
  have hlt : r < g.theSociety.length := by rw [hg.1]; exact hr
  rw [getD_row_of_lt _ _ hlt]
  exact hg.2 _ (List.getElem_mem hlt)

theorem length_assign (s : List (List Bool)) (i j : Nat) (v : Bool) :
    (assign s i j v).length = s.length := by
  simp [assign]

theorem getD_assign (s : List (List Bool)) (i j : Nat) (v : Bool) (r : Nat) :
    (assign s i j v).getD r [] = if r = i then (s.getD i []).set j v else s.getD r [] := by
  unfold assign
  by_cases hri : r = i
  · subst hri
    by_cases hr : r < s.length
    · simp [hr]
    · have h1 : s.length ≤ r := by omega
      rw [List.set_eq_of_length_le h1]
      simp [List.getElem?_eq_none h1]
  · have hne : i ≠ r := fun h => hri h.symm
    simp [hri, List.getElem?_set_ne hne]

theorem rowLength_assign (s : List (List Bool)) (i j : Nat) (v : Bool) (r : Nat) :
    ((assign s i j v).getD r []).length = (s.getD r []).length := by
  rw [getD_assign]
  split
  · rename_i h
    subst h
    simp
  · rfl

theorem peek_assign (s : List (List Bool)) (i j : Nat) (v : Bool) (r c : Nat) :
    peek (assign s i j v) r c =
      if r = i ∧ c = j ∧ j < (s.getD i []).length then v else peek s r c := by
  unfold peek
  rw [getD_assign]
  by_cases hri : r = i
  · subst hri
    by_cases hcj : c = j
    · subst hcj
      by_cases hc : c < (s.getD r []).length
      · simp only [List.getD_eq_getElem?_getD] at hc ⊢
        simp [hc]
      · have h1 : (s.getD r []).length ≤ c := by omega
        simp only [if_true, true_and, hc, if_false]
        rw [List.set_eq_of_length_le h1]
    · have hne : j ≠ c := fun h => hcj h.symm
      simp [hcj, List.getElem?_set_ne hne]
  · simp [hri]

/-! ## Construction, activation and query -/

theorem peek_construct (rows cols r c : Nat) :
    peek (construct rows cols).theSociety r c = false := by
  unfold peek construct
  simp only [List.getD_eq_getElem?_getD, List.getElem?_replicate]
  by_cases hr : r < rows
  · by_cases hc : c < cols <;> simp [hr, hc, List.getElem?_replicate]
  · simp [hr]

theorem rect_construct (rows cols : Nat) : (construct rows cols).Rect rows cols := by
  constructor
  · simp [construct]
  · intro r hr
    simp only [construct] at hr
    rw [List.eq_of_mem_replicate hr]
    simp

/-- C4: every cell of a freshly constructed grid is dead: `cellAt(r, c)` is false at
every position, in particular at every `0 <= r < rows`, `0 <= c < cols` of a grid
constructed with `rows >= 1` and `cols >= 1`. -/
theorem construct_cellAt (rows cols r c : Nat) :
    (construct rows cols).cellAt r c = false := by
  rw [cellAt_eq_peek]
  exact peek_construct rows cols r c

/-- C5: after `growCellAt(r, c)` at an in-range position, `cellAt(r, c)` is true,
whatever the cell held before. -/
theorem cellAt_growCellAt_same (g : GameOfLife) (rows cols : Nat) (hg : g.Rect rows cols)
    (r c : Nat) (hr : r < rows) (hc : c < cols) :
    (g.growCellAt r c).cellAt r c = true := by
  rw [cellAt_eq_peek, growCellAt_theSociety, peek_assign, hg.rowLength hr]
  simp [hc]

theorem cellAt_growCellAt_same_witness :
    ((construct 2 3).growCellAt 1 2).Rect 2 3 ∧
      ((construct 2 3).growCellAt 1 2).cellAt 1 2 = true ∧
      (((construct 2 3).growCellAt 1 2).growCellAt 1 2).cellAt 1 2 = true :=
  ⟨by decide,
    cellAt_growCellAt_same (construct 2 3) 2 3 (by decide) 1 2 (by decide) (by decide),
    cellAt_growCellAt_same ((construct 2 3).growCellAt 1 2) 2 3 (by decide) 1 2
      (by decide) (by decide)⟩

/-- C6: `growCellAt(r, c)` leaves `cellAt(r', c')` unchanged for every coordinate
pair `(r', c')` other than `(r, c)`; this holds for every grid and every `(r, c)`,
in particular the in-range ones. -/
theorem cellAt_growCellAt_other (g : GameOfLife) (r c r' c' : Nat)
    (hne : (r', c') ≠ (r, c)) :
    (g.growCellAt r c).cellAt r' c' = g.cellAt r' c' := by
  rw [cellAt_eq_peek, cellAt_eq_peek, growCellAt_theSociety, peek_assign]
  have hneq : ¬ (r' = r ∧ c' = c ∧ c < (g.theSociety.getD r []).length) := by
    rintro ⟨h1, h2, _⟩
    exact hne (by rw [h1, h2])
  rw [if_neg hneq]

theorem cellAt_growCellAt_other_witness :
    (((construct 2 3).growCellAt 0 1).growCellAt 1 2).cellAt 0 1
      = ((construct 2 3).growCellAt 0 1).cellAt 0 1 :=
  cellAt_growCellAt_other ((construct 2 3).growCellAt 0 1) 1 2 0 1 (by decide)

/-- C7: on a grid with `rows` rows and `cols` columns, `cellAt(row, col)` returns
false whenever `row >= rows` or `col >= cols`, whatever the grid holds. -/
theorem cellAt_out_of_range (g : GameOfLife) (rows cols : Nat) (hg : g.Rect rows cols)
    (row col : Nat) (h : rows ≤ row ∨ cols ≤ col) :
    g.cellAt row col = false := by
  unfold cellAt
  by_cases hr : row < g.theSociety.length
  · have hlen : g.theSociety[row].length = cols := hg.2 _ (List.getElem_mem hr)
    have hcol : ¬ col < g.theSociety[row].length := by
      rw [hlen]
      rcases h with h | h
      · rw [hg.1] at hr
        omega
      · omega
    simp [hr, hcol]
  · simp [hr]

theorem cellAt_out_of_range_witness :
    ((construct 2 3).growCellAt 1 2).cellAt 2 0 = false ∧
      ((construct 2 3).growCellAt 1 2).cellAt 1 3 = false :=
  ⟨cellAt_out_of_range ((construct 2 3).growCellAt 1 2) 2 3 (by decide) 2 0
      (Or.inl (by decide)),
    cellAt_out_of_range ((construct 2 3).growCellAt 1 2) 2 3 (by decide) 1 3
      (Or.inr (by decide))⟩

/-- C8: on a grid with `rows` rows and `cols` columns, `growCellAt(row, col)` with
`row >= rows` or `col >= cols` returns the grid it was given: same dimensions,
same state of every cell. -/
theorem growCellAt_out_of_range (g : GameOfLife) (rows cols : Nat) (hg : g.Rect rows cols)
    (row col : Nat) (h : rows ≤ row ∨ cols ≤ col) :
    g.growCellAt row col = g := by
  unfold growCellAt
  by_cases hr : row < g.theSociety.length
  · have hlen : g.theSociety[row].length = cols := hg.2 _ (List.getElem_mem hr)
    have hcol : ¬ col < g.theSociety[row].length := by
      rw [hlen]
      rcases h with h | h
      · rw [hg.1] at hr
        omega
      · omega
    simp [hr, hcol]
  · simp [hr]

theorem growCellAt_out_of_range_witness :
    ((construct 2 3).growCellAt 1 2).growCellAt 2 0 = (construct 2 3).growCellAt 1 2 ∧
      ((construct 2 3).growCellAt 1 2).growCellAt 1 3 = (construct 2 3).growCellAt 1 2 :=
  ⟨growCellAt_out_of_range ((construct 2 3).growCellAt 1 2) 2 3 (by decide) 2 0
      (Or.inl (by decide)),
    growCellAt_out_of_range ((construct 2 3).growCellAt 1 2) 2 3 (by decide) 1 3
      (Or.inr (by decide))⟩

/-! ## Shape: the dimensions never change -/

theorem SameShape.refl (s : List (List Bool)) : SameShape s s :=
  ⟨rfl, fun _ => rfl⟩

theorem SameShape.trans {s t u : List (List Bool)} (h1 : SameShape s t)
    (h2 : SameShape t u) : SameShape s u :=
  ⟨h1.1.trans h2.1, fun r => (h1.2 r).trans (h2.2 r)⟩

theorem sameShape_assign (s : List (List Bool)) (i j : Nat) (v : Bool) :
    SameShape (assign s i j v) s :=
  ⟨length_assign s i j v, rowLength_assign s i j v⟩

theorem sameShape_updateCell (t0 : GameOfLife) (s : List (List Bool)) (i j : Nat) :
    SameShape (updateCell t0 s i j) s := by
  unfold updateCell
  split <;> split <;> first | exact sameShape_assign _ _ _ _ | exact SameShape.refl _

theorem sameShape_foldl {α : Type} (f : List (List Bool) → α → List (List Bool))
    (hf : ∀ s a, SameShape (f s a) s) (l : List α) (s : List (List Bool)) :
    SameShape (l.foldl f s) s := by
  induction l generalizing s with
  | nil => exact SameShape.refl s
  | cons a l ih => exact (ih (f s a)).trans (hf s a)

theorem sameShape_update (g : GameOfLife) : SameShape g.update.theSociety g.theSociety := by
  unfold update
  apply sameShape_foldl
  intro s i
  apply sameShape_foldl
  intro s j
  exact sameShape_updateCell g s i j

theorem rect_iff (g : GameOfLife) (rows cols : Nat) :
    g.Rect rows cols ↔
      g.theSociety.length = rows ∧ ∀ r, r < rows → (g.theSociety.getD r []).length = cols := by
  constructor
  · intro hg
    exact ⟨hg.1, fun r hr => hg.rowLength hr⟩
  · rintro ⟨hlen, hrow⟩
    refine ⟨hlen, ?_⟩
    intro row hmem
    obtain ⟨n, hn, rfl⟩ := List.getElem_of_mem hmem
    have := hrow n (by omega)
    rwa [getD_row_of_lt _ _ hn] at this

theorem Rect.of_sameShape {g h : GameOfLife} {rows cols : Nat} (hg : g.Rect rows cols)
    (hs : SameShape h.theSociety g.theSociety) : h.Rect rows cols := by
  rw [rect_iff] at hg ⊢
  exact ⟨hs.1.trans hg.1, fun r hr => (hs.2 r).trans (hg.2 r hr)⟩

theorem rect_growCellAt {g : GameOfLife} {rows cols : Nat} (hg : g.Rect rows cols)
    (r c : Nat) : (g.growCellAt r c).Rect rows cols := by
  apply hg.of_sameShape
  rw [growCellAt_theSociety]
  exact sameShape_assign _ _ _ _

theorem rect_update {g : GameOfLife} {rows cols : Nat} (hg : g.Rect rows cols) :
    g.update.Rect rows cols :=
  hg.of_sameShape (sameShape_update g)

theorem rect_performAll {g : GameOfLife} {rows cols : Nat} (hg : g.Rect rows cols)
    (calls : List Call) : (g.performAll calls).Rect rows cols := by
  unfold performAll
  induction calls generalizing g with
  | nil => exact hg
  | cons call calls ih =>
    apply ih
    cases call with
    | growCellAt r c => exact rect_growCellAt hg r c
    | update => exact rect_update hg

/-- C9: a grid constructed with `rows >= 1` and `cols >= 1` has exactly `rows` rows of
exactly `cols` cells each, and so has the grid reached from it by any sequence of
`growCellAt` calls (in range or not) and `update()` calls. -/
theorem rect_reachable (rows cols : Nat) (_hrows : 1 ≤ rows) (_hcols : 1 ≤ cols)
    (calls : List Call) :
    (construct rows cols).Rect rows cols ∧
      ((construct rows cols).performAll calls).Rect rows cols :=
  ⟨rect_construct rows cols, rect_performAll (rect_construct rows cols) calls⟩

theorem rect_reachable_witness :
    ((construct 3 3).performAll
        [Call.growCellAt 1 0, Call.growCellAt 1 1, Call.growCellAt 1 2,
          Call.growCellAt 7 7, Call.update, Call.growCellAt 0 5, Call.update]).Rect 3 3 :=
  (rect_reachable 3 3 (by decide) (by decide)
    [Call.growCellAt 1 0, Call.growCellAt 1 1, Call.growCellAt 1 2,
      Call.growCellAt 7 7, Call.update, Call.growCellAt 0 5, Call.update]).2

/-! ## The generation advance -/

theorem cellAtInt_natCast (g : GameOfLife) (r c : Nat) :
    g.cellAtInt (r : Int) (c : Int) = g.cellAt r c := by
  have hr : ¬ ((r : Int) < 0) := by omega
  have hc : ¬ ((c : Int) < 0) := by omega
  simp [cellAtInt, hr, hc]

theorem ite_peek_same (s : List (List Bool)) (i j r c : Nat) (P : Prop) [Decidable P] :
    (if r = i ∧ c = j ∧ P then peek s i j else peek s r c) = peek s r c := by
  split
  · rename_i h
    rw [h.1, h.2.1]
  · rfl

theorem peek_updateCell (t0 : GameOfLife) (s : List (List Bool)) (i j r c : Nat) :
    peek (updateCell t0 s i j) r c =
      if r = i ∧ c = j ∧ j < (s.getD i []).length then nextValue t0 i j (peek s i j)
      else peek s r c := by
  unfold updateCell nextValue
  by_cases hcell : t0.cellAtInt i j = true
  · by_cases hn : t0.neighborCount i j < 2 ∨ t0.neighborCount i j > 3
    · rw [if_pos hcell, if_pos hn, if_pos hcell, if_pos hn, peek_assign]
    · rw [if_pos hcell, if_neg hn, if_pos hcell, if_neg hn, ite_peek_same]
  · by_cases hn : t0.neighborCount i j = 3
    · rw [if_neg hcell, if_pos hn, if_neg hcell, if_pos hn, peek_assign]
    · rw [if_neg hcell, if_neg hn, if_neg hcell, if_neg hn, ite_peek_same]

theorem peek_rowLoop (t0 : GameOfLife) (s : List (List Bool)) (i n : Nat)
    (hn : n ≤ (s.getD i []).length) (r c : Nat) :
    peek ((List.range n).foldl (fun society j => updateCell t0 society i j) s) r c =
      if r = i ∧ c < n then nextValue t0 i c (peek s i c) else peek s r c := by
  induction n generalizing r c with
  | zero => simp
  | succ n ih =>
    have hshape : SameShape
        ((List.range n).foldl (fun society j => updateCell t0 society i j) s) s :=
      sameShape_foldl _ (fun s j => sameShape_updateCell t0 s i j) _ _
    rw [List.range_succ, List.foldl_append]
    simp only [List.foldl_cons, List.foldl_nil]
    rw [peek_updateCell, hshape.2 i, ih (by omega) r c, ih (by omega) i n]
    by_cases hri : r = i
    · subst hri
      by_cases hcn : c = n
      · subst hcn
        have hlt : c < (s.getD r []).length := by omega
        rw [if_pos ⟨rfl, rfl, hlt⟩]
        simp
      · by_cases hlt : c < n
        · have : c < n + 1 := by omega
          simp [hcn, hlt, this]
        · have : ¬ c < n + 1 := by omega
          simp [hcn, hlt, this]
    · simp [hri]

theorem peek_gridLoop (t0 : GameOfLife) (s : List (List Bool)) (numCols m : Nat)
    (hm : ∀ r, r < m → numCols ≤ (s.getD r []).length) (r c : Nat) :
    peek ((List.range m).foldl
        (fun society i =>
          (List.range numCols).foldl (fun society j => updateCell t0 society i j) society)
        s) r c =
      if r < m ∧ c < numCols then nextValue t0 r c (peek s r c) else peek s r c := by
  induction m generalizing r c with
  | zero => simp
  | succ m ih =>
    have hshape : SameShape
        ((List.range m).foldl
          (fun society i =>
            (List.range numCols).foldl (fun society j => updateCell t0 society i j) society)
          s) s :=
      sameShape_foldl _
        (fun s i => sameShape_foldl _ (fun s j => sameShape_updateCell t0 s i j) _ _) _ _
    have hm' : ∀ r, r < m → numCols ≤ (s.getD r []).length := fun r hr => hm r (by omega)
    rw [List.range_succ, List.foldl_append]
    simp only [List.foldl_cons, List.foldl_nil]
    rw [peek_rowLoop t0 _ m numCols (by rw [hshape.2 m]; exact hm m (by omega)),
      ih hm' r c, ih hm' m c]
    by_cases hrm : r = m
    · subst hrm
      by_cases hc : c < numCols <;> simp [hc]
    · by_cases hlt : r < m
      · have : r < m + 1 := by omega
        simp [hrm, hlt, this]
      · have : ¬ r < m + 1 := by omega
        simp [hrm, hlt, this]

theorem toInt32_of_le (n : Int) (h0 : 0 ≤ n) (h : n ≤ 2147483647) : toInt32 n = n := by
  unfold toInt32
  omega

theorem toNat_toInt32_le (n : Nat) : (toInt32 (n : Int)).toNat ≤ n := by
  unfold toInt32
  omega

theorem toNat_toInt32_of_le (n : Nat) (h : n ≤ 2147483647) : (toInt32 (n : Int)).toNat = n := by
  unfold toInt32
  omega

theorem cellAt_update_loops (g : GameOfLife) (rows cols : Nat) (hrows : 1 ≤ rows)
    (hg : g.Rect rows cols) (r c : Nat) :
    g.update.cellAt r c =
      if r < (toInt32 (rows : Int)).toNat ∧ c < (toInt32 (cols : Int)).toNat then
        nextValue g r c (g.cellAt r c)
      else g.cellAt r c := by
  have hcols : (g.theSociety.getD 0 []).length = cols := hg.rowLength (by omega)
  rw [cellAt_eq_peek, cellAt_eq_peek]
  unfold update
  simp only
  rw [hcols, hg.1]
  rw [peek_gridLoop g g.theSociety _ _ (fun r hr => by
    have h1 := toNat_toInt32_le rows
    have h2 := toNat_toInt32_le cols
    rw [hg.rowLength (show r < rows by omega)]
    exact h2)]

theorem cellAt_update (g : GameOfLife) (rows cols : Nat) (hrows : 1 ≤ rows)
    (hg : g.Rect rows cols) (hrowsI : rows ≤ 2147483647) (hcolsI : cols ≤ 2147483647)
    (r c : Nat) (hr : r < rows) (hc : c < cols) :
    g.update.cellAt r c = nextValue g r c (g.cellAt r c) := by
  rw [cellAt_update_loops g rows cols hrows hg, toNat_toInt32_of_le rows hrowsI,
    toNat_toInt32_of_le cols hcolsI, if_pos ⟨hr, hc⟩]

/-- C1, as amended: on a grid with `1 <= rows <= 2^31 - 1` and `1 <= cols <= 2^31 - 1`
(both dimensions fit in an `int`), after one `update()` the cell at an in-range
`(r, c)` is live exactly when it was live before the call and `n` is 2 or 3, or it was
dead before the call and `n` is 3, where `n` is `neighborCount(r, c)` on the grid as
it was before the call; it is dead in every other case. -/
theorem update_rule (g : GameOfLife) (rows cols : Nat) (hrows : 1 ≤ rows) (_hcols : 1 ≤ cols)
    (hg : g.Rect rows cols) (hrowsI : rows ≤ 2147483647) (hcolsI : cols ≤ 2147483647)
    (r c : Nat) (hr : r < rows) (hc : c < cols) :
    (g.update.cellAt r c = true ↔
        (g.cellAt r c = true ∧ (g.neighborCount r c = 2 ∨ g.neighborCount r c = 3)) ∨
        (g.cellAt r c = false ∧ g.neighborCount r c = 3)) ∧
      (g.update.cellAt r c = false ↔
        ¬ ((g.cellAt r c = true ∧ (g.neighborCount r c = 2 ∨ g.neighborCount r c = 3)) ∨
          (g.cellAt r c = false ∧ g.neighborCount r c = 3))) := by
  have key : g.update.cellAt r c = true ↔
      (g.cellAt r c = true ∧ (g.neighborCount r c = 2 ∨ g.neighborCount r c = 3)) ∨
        (g.cellAt r c = false ∧ g.neighborCount r c = 3) := by
    rw [cellAt_update g rows cols hrows hg hrowsI hcolsI r c hr hc]
    unfold nextValue
    rw [cellAtInt_natCast]
    cases hcell : g.cellAt r c
    · by_cases h3 : g.neighborCount r c = 3 <;> simp [h3]
    · by_cases h : g.neighborCount (r : Int) (c : Int) < 2 ∨ g.neighborCount (r : Int) (c : Int) > 3
      · have hno : ¬ (g.neighborCount r c = 2 ∨ g.neighborCount r c = 3) := by omega
        simp [h, hno]
      · have hyes : g.neighborCount r c = 2 ∨ g.neighborCount r c = 3 := by omega
        simp [h, hyes]
  refine ⟨key, ?_⟩
  rw [← key]
  simp

theorem update_rule_witness :
    blinker.Rect 5 5 ∧ blinker.update.cellAt 1 2 = true ∧ blinker.update.cellAt 2 1 = false ∧
      blinker.update.cellAt 2 2 = true :=
  ⟨by decide,
    (update_rule blinker 5 5 (by decide) (by decide) (by decide) (by decide) (by decide)
      1 2 (by decide) (by decide)).1.mpr (Or.inr (by decide)),
    (update_rule blinker 5 5 (by decide) (by decide) (by decide) (by decide) (by decide)
      2 1 (by decide) (by decide)).2.mpr (by decide),
    (update_rule blinker 5 5 (by decide) (by decide) (by decide) (by decide) (by decide)
      2 2 (by decide) (by decide)).1.mpr (Or.inl (by decide))⟩

/-! ## Counting neighbours -/

theorem count_step (P : Prop) [Decidable P] (b : Bool) (k : Int) :
    (if ¬ P then (if b = true then k + 1 else k) else k) =
      k + (if (decide (¬ P) && b) = true then 1 else 0) := by
  by_cases hP : P <;> cases b <;> simp [hP]

theorem neighborCount_eq_visitCount (g : GameOfLife) (row col : Int) :
    g.neighborCount row col =
      (g.visitCount (toInt32 ((g.theSociety.length : Int) - 1))
        (toInt32 (((g.theSociety.getD 0 []).length : Int) - 1)) row col : Int) := by
  unfold neighborCount visitCount
  simp only [offsets, List.foldl_cons, List.foldl_nil, count_step,
    List.countP_cons, List.countP_nil, wrapInt]
  push_cast
  ring

theorem wrappedNeighborCount_eq_visitCount (g : GameOfLife) (rows cols : Nat)
    (row col : Int) :
    g.wrappedNeighborCount rows cols row col =
      g.visitCount ((rows : Int) - 1) ((cols : Int) - 1) row col :=
  rfl

theorem neighborCount_eq_wrapped (g : GameOfLife) (rows cols : Nat) (hrows : 1 ≤ rows)
    (hcols : 1 ≤ cols) (hg : g.Rect rows cols) (hrowsI : rows ≤ 2147483647)
    (hcolsI : cols ≤ 2147483647) (row col : Int) :
    g.neighborCount row col = (g.wrappedNeighborCount rows cols row col : Int) := by
  have hlen : (g.theSociety.getD 0 []).length = cols := hg.rowLength (by omega)
  rw [neighborCount_eq_visitCount, wrappedNeighborCount_eq_visitCount, hlen, hg.1,
    toInt32_of_le _ (by omega) (by omega), toInt32_of_le _ (by omega) (by omega)]

theorem mem_offsets (d : Int × Int) (h : d ∈ offsets) :
    (d.1 = -1 ∨ d.1 = 0 ∨ d.1 = 1) ∧ (d.2 = -1 ∨ d.2 = 0 ∨ d.2 = 1) := by
  simp only [offsets, List.mem_cons, List.mem_singleton] at h
  rcases h with h | h | h | h | h | h | h | h | h | h <;> first | (subst h; simp) | simp at h

theorem wrapTo_of_inRange (r n : Nat) (hr : r < n) : wrapTo (r : Int) n = r := by
  unfold wrapTo
  split_ifs <;> omega

theorem wrapTo_eq_self_iff (r n : Nat) (hn : 2 ≤ n) (hr : r < n) (i : Int)
    (hi : i = -1 ∨ i = 0 ∨ i = 1) : wrapTo ((r : Int) + i) n = r ↔ i = 0 := by
  unfold wrapTo
  split_ifs <;> omega

theorem wrappedNeighborCount_le (g : GameOfLife) (rows cols row col : Nat)
    (hr : row < rows) (hc : col < cols) :
    g.wrappedNeighborCount rows cols row col ≤ 8 := by
  have h8 : offsets.countP (fun d => decide (d ≠ (0, 0))) = 8 := by decide
  rw [← h8]
  unfold wrappedNeighborCount
  apply List.countP_mono_left
  intro d _ hd
  have hne : d ≠ (0, 0) := by
    rintro rfl
    simp [wrapTo_of_inRange row rows hr, wrapTo_of_inRange col cols hc] at hd
  simpa using hne

/-- C3, as amended: on a grid with `1 <= rows <= 2^31 - 1` and `1 <= cols <= 2^31 - 1`
(both dimensions fit in an `int`), `neighborCount(r, c)` at an in-range `(r, c)` is at
least 0 and at most 8. -/
theorem neighborCount_bounds (g : GameOfLife) (rows cols : Nat) (hrows : 1 ≤ rows)
    (hcols : 1 ≤ cols) (hg : g.Rect rows cols) (hrowsI : rows ≤ 2147483647)
    (hcolsI : cols ≤ 2147483647) (r c : Nat) (hr : r < rows) (hc : c < cols) :
    0 ≤ g.neighborCount r c ∧ g.neighborCount r c ≤ 8 := by
  rw [neighborCount_eq_wrapped g rows cols hrows hcols hg hrowsI hcolsI]
  have := wrappedNeighborCount_le g rows cols r c hr hc
  omega

theorem neighborCount_bounds_witness :
    blinker.Rect 5 5 ∧
      0 ≤ blinker.neighborCount ((2 : Nat) : Int) ((2 : Nat) : Int) ∧
      blinker.neighborCount ((2 : Nat) : Int) ((2 : Nat) : Int) ≤ 8 :=
  ⟨by decide,
    neighborCount_bounds blinker 5 5 (by decide) (by decide) (by decide) (by decide)
      (by decide) 2 2 (by decide) (by decide)⟩

/-- C2, as amended: on a grid with `1 <= rows <= 2^31 - 1` and `1 <= cols <= 2^31 - 1`
(both dimensions fit in an `int`) and an in-range `(row, col)`, `neighborCount(row, col)`
is the number of offset pairs `(di, dj)`, `di, dj` in `{-1, 0, 1}`, whose wrapped
position `(x, y)` differs from `(row, col)` and has `cellAt(x, y)` true; when
`rows >= 2` and `cols >= 2` these are the offset pairs other than `(0, 0)`, and the
count is the one the specification words. -/
theorem neighborCount_eq_count (g : GameOfLife) (rows cols : Nat) (hrows : 1 ≤ rows)
    (hcols : 1 ≤ cols) (hg : g.Rect rows cols) (hrowsI : rows ≤ 2147483647)
    (hcolsI : cols ≤ 2147483647) (row col : Nat) (hr : row < rows) (hc : col < cols) :
    g.neighborCount row col = (g.wrappedNeighborCount rows cols row col : Int) ∧
      (2 ≤ rows → 2 ≤ cols →
        g.neighborCount row col = (g.specNeighborCount rows cols row col : Int)) := by
  refine ⟨neighborCount_eq_wrapped g rows cols hrows hcols hg hrowsI hcolsI row col, ?_⟩
  intro h2r h2c
  rw [neighborCount_eq_wrapped g rows cols hrows hcols hg hrowsI hcolsI row col]
  congr 1
  unfold wrappedNeighborCount specNeighborCount
  apply List.countP_congr
  intro d hd
  obtain ⟨h1, h2⟩ := mem_offsets d hd
  have hx := wrapTo_eq_self_iff row rows h2r hr d.1 h1
  have hy := wrapTo_eq_self_iff col cols h2c hc d.2 h2
  have hd0 : d = (0, 0) ↔ d.1 = 0 ∧ d.2 = 0 := Prod.ext_iff
  simp only [Bool.and_eq_true, decide_eq_true_eq, hx, hy, ne_eq, hd0]

theorem neighborCount_eq_count_witness :
    (blinker.neighborCount ((2 : Nat) : Int) ((2 : Nat) : Int)
        = (blinker.wrappedNeighborCount 5 5 ((2 : Nat) : Int) ((2 : Nat) : Int) : Int) ∧
      blinker.neighborCount ((2 : Nat) : Int) ((2 : Nat) : Int)
        = (blinker.specNeighborCount 5 5 ((2 : Nat) : Int) ((2 : Nat) : Int) : Int)) ∧
      singleRow.neighborCount ((0 : Nat) : Int) ((1 : Nat) : Int)
        = (singleRow.wrappedNeighborCount 1 3 ((0 : Nat) : Int) ((1 : Nat) : Int) : Int) :=
  ⟨⟨(neighborCount_eq_count blinker 5 5 (by decide) (by decide) (by decide) (by decide)
        (by decide) 2 2 (by decide) (by decide)).1,
      (neighborCount_eq_count blinker 5 5 (by decide) (by decide) (by decide) (by decide)
        (by decide) 2 2 (by decide) (by decide)).2 (by decide) (by decide)⟩,
    (neighborCount_eq_count singleRow 1 3 (by decide) (by decide) (by decide) (by decide)
      (by decide) 0 1 (by decide) (by decide)).1⟩

/-! ## Rendering -/

theorem data_rowLoop (row : List Bool) (ret : String) :
    (row.foldl (fun retString col => if col then retString ++ "O" else retString ++ ".")
      ret).data = ret.data ++ row.map cellChar := by
  induction row generalizing ret with
  | nil => simp
  | cons b row ih =>
    rw [List.foldl_cons, ih]
    cases b <;> simp [cellChar]

theorem data_gridLoop (society : List (List Bool)) (ret : String) :
    (society.foldl
      (fun retString row =>
        (row.foldl (fun retString col => if col then retString ++ "O" else retString ++ ".")
          retString) ++ "\n")
      ret).data = ret.data ++ (society.map rowChars).flatten := by
  induction society generalizing ret with
  | nil => simp
  | cons row society ih =>
    rw [List.foldl_cons, ih, String.data_append, data_rowLoop]
    simp [rowChars]

theorem toString_data (g : GameOfLife) :
    g.toString.data = (g.theSociety.map rowChars).flatten := by
  unfold toString
  rw [data_gridLoop]
  rfl

theorem length_flatten_blocks (l : List (List Char)) (n : Nat)
    (hl : ∀ b ∈ l, b.length = n) : l.flatten.length = l.length * n := by
  induction l with
  | nil => simp
  | cons b l ih =>
    rw [List.flatten_cons, List.length_append, ih (fun x hx => hl x (List.mem_cons_of_mem _ hx)),
      hl b (List.mem_cons_self _ _), List.length_cons]
    ring

theorem index_flatten_blocks (l : List (List Char)) (n : Nat)
    (hl : ∀ b ∈ l, b.length = n) (r k : Nat) (hk : k < n) :
    l.flatten[r * n + k]? = (l.getD r [])[k]? := by
  induction l generalizing r with
  | nil => simp
  | cons b l ih =>
    have hb : b.length = n := hl b (List.mem_cons_self _ _)
    rw [List.flatten_cons]
    cases r with
    | zero =>
      rw [List.getElem?_append_left (by omega)]
      simp
    | succ r =>
      rw [List.getElem?_append_right (by rw [hb]; nlinarith)]
      have hidx : (r + 1) * n + k - b.length = r * n + k := by
        rw [hb, Nat.add_mul]
        omega
      rw [hidx, ih (fun x hx => hl x (List.mem_cons_of_mem _ hx))]
      simp

theorem rowChars_length (row : List Bool) : (rowChars row).length = row.length + 1 := by
  simp [rowChars]

theorem getD_map_rowChars (society : List (List Bool)) (r : Nat) (hr : r < society.length) :
    (society.map rowChars).getD r [] = rowChars society[r] := by
  simp [List.getElem?_eq_getElem hr]

/-- C10: on a grid with `rows >= 1` and `cols >= 1`, `toString()` has length
`rows * (cols + 1)`; for every `0 <= r < rows` and `0 <= c < cols` its character at
index `r * (cols + 1) + c` is `O` if `cellAt(r, c)` is true and `.` otherwise, and
its character at index `r * (cols + 1) + cols` is the newline.  The all-dead 2x2
grid renders as two lines of two dots, and after `growCellAt(0, 0)` the first
character is `O`. -/
theorem toString_format (g : GameOfLife) (rows cols : Nat) (_hrows : 1 ≤ rows)
    (_hcols : 1 ≤ cols) (hg : g.Rect rows cols) :
    g.toString.length = rows * (cols + 1) ∧
      (∀ r c, r < rows → c < cols →
        g.toString.data[r * (cols + 1) + c]? = some (if g.cellAt r c then 'O' else '.')) ∧
      (∀ r, r < rows → g.toString.data[r * (cols + 1) + cols]? = some '\n') ∧
      (construct 2 2).toString = "..\n..\n" ∧
      ((construct 2 2).growCellAt 0 0).toString = "O.\n..\n" := by
  have hblocks : ∀ b ∈ g.theSociety.map rowChars, b.length = cols + 1 := by
    intro b hb
    obtain ⟨row, hrow, rfl⟩ := List.mem_map.mp hb
    rw [rowChars_length, hg.2 row hrow]
  refine ⟨?_, ?_, ?_, by decide, by decide⟩
  · show g.toString.data.length = rows * (cols + 1)
    rw [toString_data, length_flatten_blocks _ _ hblocks, List.length_map, hg.1]
  · intro r c hr hc
    have hlt : r < g.theSociety.length := by rw [hg.1]; exact hr
    have hlen : g.theSociety[r].length = cols := hg.2 _ (List.getElem_mem hlt)
    have hc2 : c < g.theSociety[r].length := by rw [hlen]; exact hc
    rw [toString_data, index_flatten_blocks _ _ hblocks r c (by omega),
      getD_map_rowChars _ _ hlt]
    unfold rowChars
    rw [List.getElem?_append_left (by rw [List.length_map]; exact hc2)]
    simp [List.getElem?_eq_getElem hc2, cellAt, hlt, hc2, cellChar]
  · intro r hr
    have hlt : r < g.theSociety.length := by rw [hg.1]; exact hr
    have hlen : g.theSociety[r].length = cols := hg.2 _ (List.getElem_mem hlt)
    rw [toString_data, index_flatten_blocks _ _ hblocks r cols (by omega),
      getD_map_rowChars _ _ hlt]
    unfold rowChars
    rw [List.getElem?_append_right (by rw [List.length_map, hlen])]
    simp [hlen]

theorem toString_format_witness :
    ((construct 2 2).growCellAt 0 0).Rect 2 2 ∧
      ((construct 2 2).growCellAt 0 0).toString.length = 2 * (2 + 1) ∧
      ((construct 2 2).growCellAt 0 0).toString.data[0 * (2 + 1) + 0]?
        = some (if ((construct 2 2).growCellAt 0 0).cellAt 0 0 then 'O' else '.') ∧
      ((construct 2 2).growCellAt 0 0).toString.data[1 * (2 + 1) + 2]? = some '\n' :=
  ⟨by decide,
    (toString_format ((construct 2 2).growCellAt 0 0) 2 2 (by decide) (by decide)
      (by decide)).1,
    (toString_format ((construct 2 2).growCellAt 0 0) 2 2 (by decide) (by decide)
      (by decide)).2.1 0 0 (by decide) (by decide),
    (toString_format ((construct 2 2).growCellAt 0 0) 2 2 (by decide) (by decide)
      (by decide)).2.2.1 1 (by decide)⟩

/-! ## Worked examples -/

/-- C11: on the documented 5 by 9 grid, whose live cells are exactly `(0,5)`, `(0,8)`,
`(1,0)`, `(2,0)`, `(2,8)`, `(3,0)`, `(3,8)`, `(4,4)`, `(4,6)`, the neighbour counts are
`neighborCount(2,3) = 0`, `neighborCount(2,8) = 4`, `neighborCount(2,0) = 4`,
`neighborCount(1,0) = 3`, `neighborCount(3,8) = 3` and, at the dead position `(4,8)`,
`neighborCount(4,8) = 3`. -/
theorem neighborCount_documented :
    documented.Rect 5 9 ∧
      documented.LiveExactly 5 9
        [(0, 5), (0, 8), (1, 0), (2, 0), (2, 8), (3, 0), (3, 8), (4, 4), (4, 6)] ∧
      documented.toString = ".....O..O\nO........\nO.......O\nO.......O\n....O.O..\n" ∧
      documented.neighborCount 2 3 = 0 ∧
      documented.neighborCount 2 8 = 4 ∧
      documented.neighborCount 2 0 = 4 ∧
      documented.neighborCount 1 0 = 3 ∧
      documented.neighborCount 3 8 = 3 ∧
      documented.cellAt 4 8 = false ∧
      documented.neighborCount 4 8 = 3 := by
  decide

/-- C14 fails on the code: with arguments outside the grid no visited position is the
addressed one, so all nine are counted.  On the 2 by 2 grid with every cell live,
`neighborCount(2, 2)` and `neighborCount(-1, -1)` are 9. -/
theorem neighborCount_outside_eq_nine :
    crowded.Rect 2 2 ∧ crowded.neighborCount 2 2 = 9 ∧ crowded.neighborCount (-1) (-1) = 9 ∧
      ¬ (crowded.neighborCount 2 2 ≤ 8) := by
  decide

/-! ## Seeding -/

theorem peek_of_lt (s : List (List Bool)) (r c : Nat) (hr : r < s.length)
    (hc : c < s[r].length) : peek s r c = s[r][c] := by
  unfold peek
  rw [getD_row_of_lt _ _ hr]
  simp [List.getElem?_eq_getElem hc]

theorem society_ext (s t : List (List Bool)) (hs : SameShape s t)
    (hp : ∀ r c, peek s r c = peek t r c) : s = t := by
  apply List.ext_getElem hs.1
  intro n h1 h2
  have hlen : s[n].length = t[n].length := by
    have := hs.2 n
    rwa [getD_row_of_lt _ _ h1, getD_row_of_lt _ _ h2] at this
  apply List.ext_getElem hlen
  intro m h3 h4
  have := hp n m
  rwa [peek_of_lt _ _ _ h1 h3, peek_of_lt _ _ _ h2 h4] at this

theorem eq_of_theSociety {g h : GameOfLife} (e : g.theSociety = h.theSociety) : g = h := by
  cases g
  cases h
  simp_all

theorem peek_assign_assign (s : List (List Bool)) (r1 c1 r2 c2 r c : Nat) :
    peek (assign (assign s r1 c1 true) r2 c2 true) r c =
      if (r = r2 ∧ c = c2 ∧ c2 < (s.getD r2 []).length) ∨
          (r = r1 ∧ c = c1 ∧ c1 < (s.getD r1 []).length) then true
      else peek s r c := by
  rw [peek_assign, peek_assign, rowLength_assign]
  by_cases h2 : r = r2 ∧ c = c2 ∧ c2 < (s.getD r2 []).length
  · rw [if_pos h2, if_pos (Or.inl h2)]
  · by_cases h1 : r = r1 ∧ c = c1 ∧ c1 < (s.getD r1 []).length
    · rw [if_neg h2, if_pos h1, if_pos (Or.inr h1)]
    · rw [if_neg h2, if_neg h1, if_neg (by tauto)]

theorem assign_comm (s : List (List Bool)) (r1 c1 r2 c2 : Nat) :
    assign (assign s r1 c1 true) r2 c2 true = assign (assign s r2 c2 true) r1 c1 true := by
  apply society_ext
  · have h12 : SameShape (assign (assign s r1 c1 true) r2 c2 true) s :=
      (sameShape_assign _ _ _ _).trans (sameShape_assign _ _ _ _)
    have h21 : SameShape (assign (assign s r2 c2 true) r1 c1 true) s :=
      (sameShape_assign _ _ _ _).trans (sameShape_assign _ _ _ _)
    exact ⟨h12.1.trans h21.1.symm, fun r => (h12.2 r).trans (h21.2 r).symm⟩
  · intro r c
    rw [peek_assign_assign, peek_assign_assign]
    by_cases h2 : r = r2 ∧ c = c2 ∧ c2 < (s.getD r2 []).length
    · rw [if_pos (Or.inl h2), if_pos (Or.inr h2)]
    · by_cases h1 : r = r1 ∧ c = c1 ∧ c1 < (s.getD r1 []).length
      · rw [if_pos (Or.inr h1), if_pos (Or.inl h1)]
      · rw [if_neg (by tauto), if_neg (by tauto)]

theorem assign_idem (s : List (List Bool)) (r1 c1 : Nat) :
    assign (assign s r1 c1 true) r1 c1 true = assign s r1 c1 true := by
  apply society_ext
  · exact sameShape_assign _ _ _ _
  · intro r c
    rw [peek_assign_assign, peek_assign]
    by_cases h1 : r = r1 ∧ c = c1 ∧ c1 < (s.getD r1 []).length
    · rw [if_pos (Or.inl h1), if_pos h1]
    · rw [if_neg (by tauto), if_neg h1]

/-- C19: for every grid and all coordinate pairs `(r1, c1)` and `(r2, c2)`, in range or
not, `growCellAt(r1, c1)` followed by `growCellAt(r2, c2)` produces the same grid as
the two calls in the other order, and `growCellAt(r1, c1)` twice produces the same
grid as once. -/
theorem growCellAt_comm_idem (g : GameOfLife) (r1 c1 r2 c2 : Nat) :
    (g.growCellAt r1 c1).growCellAt r2 c2 = (g.growCellAt r2 c2).growCellAt r1 c1 ∧
      (g.growCellAt r1 c1).growCellAt r1 c1 = g.growCellAt r1 c1 := by
  constructor
  · apply eq_of_theSociety
    rw [growCellAt_theSociety, growCellAt_theSociety, growCellAt_theSociety,
      growCellAt_theSociety]
    exact assign_comm _ _ _ _ _
  · apply eq_of_theSociety
    rw [growCellAt_theSociety, growCellAt_theSociety]
    exact assign_idem _ _ _

/-! ## Rendering loses nothing -/

theorem cellChar_inj (a b : Bool) (h : cellChar a = cellChar b) : a = b := by
  cases a <;> cases b <;> first | rfl | exact absurd h (by decide)

theorem cellChar_ne_newline (b : Bool) : cellChar b ≠ '\n' := by
  cases b <;> decide

theorem rowChars_nil : rowChars [] = ['\n'] := rfl

theorem rowChars_cons (b : Bool) (row : List Bool) :
    rowChars (b :: row) = cellChar b :: rowChars row := rfl

theorem rowChars_append_inj (r1 r2 : List Bool) (t1 t2 : List Char)
    (h : rowChars r1 ++ t1 = rowChars r2 ++ t2) : r1 = r2 ∧ t1 = t2 := by
  induction r1 generalizing r2 with
  | nil =>
    cases r2 with
    | nil =>
      rw [rowChars_nil] at h
      exact ⟨rfl, (List.cons.inj h).2⟩
    | cons b r2 =>
      rw [rowChars_nil, rowChars_cons] at h
      exact absurd (List.cons.inj h).1.symm (cellChar_ne_newline b)
  | cons a r1 ih =>
    cases r2 with
    | nil =>
      rw [rowChars_nil, rowChars_cons] at h
      exact absurd (List.cons.inj h).1 (cellChar_ne_newline a)
    | cons b r2 =>
      rw [rowChars_cons, rowChars_cons] at h
      obtain ⟨hhead, htail⟩ := List.cons.inj h
      obtain ⟨hrow, hrest⟩ := ih r2 htail
      exact ⟨by rw [cellChar_inj a b hhead, hrow], hrest⟩

theorem rowChars_ne_nil (row : List Bool) (t : List Char) : rowChars row ++ t ≠ [] := by
  cases row <;> simp [rowChars]

theorem flatten_rowChars_inj (s1 s2 : List (List Bool))
    (h : (s1.map rowChars).flatten = (s2.map rowChars).flatten) : s1 = s2 := by
  induction s1 generalizing s2 with
  | nil =>
    cases s2 with
    | nil => rfl
    | cons r2 s2 =>
      rw [List.map_cons, List.flatten_cons] at h
      exact absurd h.symm (rowChars_ne_nil r2 _)
  | cons r1 s1 ih =>
    cases s2 with
    | nil =>
      rw [List.map_cons, List.flatten_cons] at h
      exact absurd h (rowChars_ne_nil r1 _)
    | cons r2 s2 =>
      rw [List.map_cons, List.flatten_cons, List.map_cons, List.flatten_cons] at h
      obtain ⟨hrow, hrest⟩ := rowChars_append_inj r1 r2 _ _ h
      rw [hrow, ih s2 hrest]

theorem eq_of_toString_eq (g1 g2 : GameOfLife) (h : g1.toString = g2.toString) : g1 = g2 := by
  apply eq_of_theSociety
  apply flatten_rowChars_inj
  rw [← toString_data, ← toString_data, h]

/-- C18: for two rectangular grids, each with at least one row and one column, equal
`toString()` results force equal numbers of rows and of columns and equal `cellAt`
at every `(r, c)`. -/
theorem toString_injective (g1 g2 : GameOfLife) (rows1 cols1 rows2 cols2 : Nat)
    (hrows1 : 1 ≤ rows1) (_hcols1 : 1 ≤ cols1) (_hrows2 : 1 ≤ rows2) (_hcols2 : 1 ≤ cols2)
    (hg1 : g1.Rect rows1 cols1) (hg2 : g2.Rect rows2 cols2)
    (h : g1.toString = g2.toString) :
    rows1 = rows2 ∧ cols1 = cols2 ∧ ∀ r c, g1.cellAt r c = g2.cellAt r c := by
  have heq : g1 = g2 := eq_of_toString_eq g1 g2 h
  subst heq
  have hr : rows1 = rows2 := hg1.1.symm.trans hg2.1
  subst hr
  have hc : cols1 = cols2 :=
    (hg1.rowLength (show 0 < rows1 by omega)).symm.trans
      (hg2.rowLength (show 0 < rows1 by omega))
  exact ⟨rfl, hc, fun _ _ => rfl⟩

theorem toString_injective_witness :
    (((construct 2 3).growCellAt 0 1).growCellAt 1 2).toString
        = (((construct 2 3).growCellAt 1 2).growCellAt 0 1).toString ∧
      2 = 2 ∧ 3 = 3 ∧
      (((construct 2 3).growCellAt 0 1).growCellAt 1 2).cellAt 0 1
        = (((construct 2 3).growCellAt 1 2).growCellAt 0 1).cellAt 0 1 :=
  ⟨by decide,
    (toString_injective (((construct 2 3).growCellAt 0 1).growCellAt 1 2)
      (((construct 2 3).growCellAt 1 2).growCellAt 0 1) 2 3 2 3
      (by decide) (by decide) (by decide) (by decide) (by decide) (by decide) (by decide)).1,
    (toString_injective (((construct 2 3).growCellAt 0 1).growCellAt 1 2)
      (((construct 2 3).growCellAt 1 2).growCellAt 0 1) 2 3 2 3
      (by decide) (by decide) (by decide) (by decide) (by decide) (by decide) (by decide)).2.1,
    (toString_injective (((construct 2 3).growCellAt 0 1).growCellAt 1 2)
      (((construct 2 3).growCellAt 1 2).growCellAt 0 1) 2 3 2 3
      (by decide) (by decide) (by decide) (by decide) (by decide) (by decide)
      (by decide)).2.2 0 1⟩

/-! ## A cell never counts itself -/

theorem cellAt_growCellAt_ne (g : GameOfLife) (r c x y : Nat) (h : ¬ (x = r ∧ y = c)) :
    (g.growCellAt r c).cellAt x y = g.cellAt x y := by
  rw [cellAt_eq_peek, cellAt_eq_peek, growCellAt_theSociety, peek_assign]
  rw [if_neg (fun hpos => h ⟨hpos.1, hpos.2.1⟩)]

theorem cellAtInt_growCellAt_ne (g : GameOfLife) (r c : Nat) (x y : Int)
    (h : ¬ (x = r ∧ y = c)) :
    (g.growCellAt r c).cellAtInt x y = g.cellAtInt x y := by
  unfold cellAtInt
  by_cases hneg : x < 0 ∨ y < 0
  · rw [if_pos hneg, if_pos hneg]
  · rw [if_neg hneg, if_neg hneg]
    apply cellAt_growCellAt_ne
    rintro ⟨hx, hy⟩
    apply h
    constructor <;> omega

/-- C15: on a grid with `rows >= 1` and `cols >= 1`, single rows and single columns
included, `neighborCount(r, c)` at an in-range `(r, c)` is the same on the grid after
`growCellAt(r, c)` as on the grid before it: a cell never counts itself. -/
theorem neighborCount_growCellAt_same (g : GameOfLife) (rows cols : Nat) (_hrows : 1 ≤ rows)
    (_hcols : 1 ≤ cols) (_hg : g.Rect rows cols) (r c : Nat) (_hr : r < rows) (_hc : c < cols) :
    (g.growCellAt r c).neighborCount r c = g.neighborCount r c := by
  have hshape : SameShape (g.growCellAt r c).theSociety g.theSociety := by
    rw [growCellAt_theSociety]
    exact sameShape_assign _ _ _ _
  rw [neighborCount_eq_visitCount (g.growCellAt r c), neighborCount_eq_visitCount g,
    hshape.1, hshape.2 0]
  congr 1
  unfold visitCount
  apply List.countP_congr
  intro d _
  generalize toInt32 ((g.theSociety.length : Int) - 1) = maxRow
  generalize toInt32 (((g.theSociety.getD 0 []).length : Int) - 1) = maxCol
  by_cases hself : wrapInt ((r : Int) + d.1) maxRow = r ∧ wrapInt ((c : Int) + d.2) maxCol = c
  · simp [hself]
  · rw [cellAtInt_growCellAt_ne g r c _ _ hself]

theorem neighborCount_growCellAt_same_witness :
    (singleRow.growCellAt 0 0).neighborCount ((0 : Nat) : Int) ((0 : Nat) : Int)
        = singleRow.neighborCount ((0 : Nat) : Int) ((0 : Nat) : Int) ∧
      ((construct 1 1).growCellAt 0 0).neighborCount ((0 : Nat) : Int) ((0 : Nat) : Int)
        = (construct 1 1).neighborCount ((0 : Nat) : Int) ((0 : Nat) : Int) :=
  ⟨neighborCount_growCellAt_same singleRow 1 3 (by decide) (by decide) (by decide) 0 0
      (by decide) (by decide),
    neighborCount_growCellAt_same (construct 1 1) 1 1 (by decide) (by decide) (by decide) 0 0
      (by decide) (by decide)⟩

/-! ## The empty generation -/

theorem cellAt_outside (g : GameOfLife) (rows cols : Nat) (hg : g.Rect rows cols)
    (r c : Nat) (h : ¬ (r < rows ∧ c < cols)) : g.cellAt r c = false := by
  unfold cellAt
  by_cases hr : r < g.theSociety.length
  · have hlen : g.theSociety[r].length = cols := hg.2 _ (List.getElem_mem hr)
    have hcol : ¬ c < g.theSociety[r].length := by
      rw [hlen]
      rw [hg.1] at hr
      exact fun hc => h ⟨hr, hc⟩
    simp [hr, hcol]
  · simp [hr]

theorem cellAtInt_of_dead (g : GameOfLife) (hdead : ∀ r c, g.cellAt r c = false)
    (x y : Int) : g.cellAtInt x y = false := by
  unfold cellAtInt
  split
  · rfl
  · exact hdead _ _

theorem visitCount_of_dead (g : GameOfLife) (hdead : ∀ r c, g.cellAt r c = false)
    (maxRow maxCol row col : Int) : g.visitCount maxRow maxCol row col = 0 := by
  unfold visitCount
  rw [List.countP_eq_zero]
  intro d _
  simp [cellAtInt_of_dead g hdead]

theorem neighborCount_of_dead (g : GameOfLife) (hdead : ∀ r c, g.cellAt r c = false)
    (row col : Int) : g.neighborCount row col = 0 := by
  rw [neighborCount_eq_visitCount, visitCount_of_dead g hdead]
  rfl

theorem update_of_dead (g : GameOfLife) (rows cols : Nat) (hrows : 1 ≤ rows)
    (hg : g.Rect rows cols) (hdead : ∀ r c, g.cellAt r c = false) (r c : Nat) :
    g.update.cellAt r c = false := by
  rw [cellAt_update_loops g rows cols hrows hg r c]
  split
  · unfold nextValue
    rw [cellAtInt_of_dead g hdead, neighborCount_of_dead g hdead]
    simp [hdead]
  · exact hdead r c

theorem iterate_update_of_dead (g : GameOfLife) (rows cols : Nat) (hrows : 1 ≤ rows)
    (hg : g.Rect rows cols) (hdead : ∀ r c, g.cellAt r c = false) (n : Nat) :
    (update^[n] g).Rect rows cols ∧ ∀ r c, (update^[n] g).cellAt r c = false := by
  induction n with
  | zero => exact ⟨hg, hdead⟩
  | succ n ih =>
    rw [Function.iterate_succ_apply']
    exact ⟨rect_update ih.1, update_of_dead _ rows cols hrows ih.1 ih.2⟩

/-- C16: on a grid with `rows >= 1` and `cols >= 1` in which every cell is dead,
`update()` leaves every cell dead, and so does any number `n` of `update()` calls. -/
theorem update_dead_fixed (g : GameOfLife) (rows cols : Nat) (hrows : 1 ≤ rows)
    (_hcols : 1 ≤ cols) (hg : g.Rect rows cols) (hdead : ∀ r c, g.cellAt r c = false)
    (n : Nat) :
    (∀ r c, g.update.cellAt r c = false) ∧ ∀ r c, (update^[n] g).cellAt r c = false :=
  ⟨update_of_dead g rows cols hrows hg hdead,
    (iterate_update_of_dead g rows cols hrows hg hdead n).2⟩

theorem update_dead_fixed_witness :
    (construct 3 4).update.cellAt 1 2 = false ∧
      (update^[5] (construct 3 4)).cellAt 1 2 = false :=
  ⟨(update_dead_fixed (construct 3 4) 3 4 (by decide) (by decide) (by decide)
      (fun r c => by rw [cellAt_eq_peek]; exact peek_construct 3 4 r c) 5).1 1 2,
    (update_dead_fixed (construct 3 4) 3 4 (by decide) (by decide) (by decide)
      (fun r c => by rw [cellAt_eq_peek]; exact peek_construct 3 4 r c) 5).2 1 2⟩

/-! ## Neighbour counts of product-shaped generations -/

theorem wrapTo_before (n r : Nat) (hr : r < n) :
    wrapTo ((r : Int) + (-1)) n = (before n r : Nat) := by
  unfold wrapTo before
  split_ifs <;> omega

theorem wrapTo_same (n r : Nat) (hr : r < n) : wrapTo ((r : Int) + 0) n = (r : Nat) := by
  unfold wrapTo
  split_ifs <;> omega

theorem wrapTo_after (n r : Nat) (hr : r < n) :
    wrapTo ((r : Int) + 1) n = (after n r : Nat) := by
  unfold wrapTo after
  split_ifs <;> omega

theorem countP_step (g : GameOfLife) (r c x y : Nat) :
    (if (decide (¬ ((x : Int) = r ∧ (y : Int) = c)) && g.cellAtInt x y) = true then 1 else 0)
      = contribution g r c x y := by
  unfold contribution
  rw [cellAtInt_natCast]
  simp only [Bool.and_eq_true, decide_eq_true_eq, Nat.cast_inj]

theorem countP_offsets (p : Int × Int → Bool) :
    offsets.countP p =
      (if p (-1, -1) = true then 1 else 0) + (if p (-1, 0) = true then 1 else 0)
        + (if p (-1, 1) = true then 1 else 0) + (if p (0, -1) = true then 1 else 0)
        + (if p (0, 0) = true then 1 else 0) + (if p (0, 1) = true then 1 else 0)
        + (if p (1, -1) = true then 1 else 0) + (if p (1, 0) = true then 1 else 0)
        + (if p (1, 1) = true then 1 else 0) := by
  simp only [offsets, List.countP_cons, List.countP_nil]
  omega

theorem wrappedNeighborCount_eq_contributions (g : GameOfLife) (rows cols r c : Nat)
    (hr : r < rows) (hc : c < cols) :
    g.wrappedNeighborCount rows cols r c =
      contribution g r c (before rows r) (before cols c)
        + contribution g r c (before rows r) c
        + contribution g r c (before rows r) (after cols c)
        + contribution g r c r (before cols c)
        + contribution g r c r c
        + contribution g r c r (after cols c)
        + contribution g r c (after rows r) (before cols c)
        + contribution g r c (after rows r) c
        + contribution g r c (after rows r) (after cols c) := by
  unfold wrappedNeighborCount
  rw [countP_offsets]
  dsimp only
  rw [wrapTo_before rows r hr, wrapTo_same rows r hr, wrapTo_after rows r hr,
    wrapTo_before cols c hc, wrapTo_same cols c hc, wrapTo_after cols c hc]
  rw [countP_step, countP_step, countP_step, countP_step, countP_step, countP_step,
    countP_step, countP_step, countP_step]

theorem before_lt (n r : Nat) (hr : r < n) : before n r < n := by
  unfold before
  split_ifs <;> omega

theorem after_lt (n r : Nat) (hr : r < n) : after n r < n := by
  unfold after
  split_ifs <;> omega

theorem before_after_self (n r : Nat) (hr : r < n) :
    (n = 1 ∧ before n r = r ∧ after n r = r) ∨ (n ≠ 1 ∧ before n r ≠ r ∧ after n r ≠ r) := by
  unfold before after
  split_ifs <;> omega

theorem contribution_of_product (g : GameOfLife) (rows cols : Nat) (A B : Nat → Prop)
    [DecidablePred A] [DecidablePred B]
    (hlive : ∀ x, x < rows → ∀ y, y < cols → (g.cellAt x y = true ↔ A x ∧ B y))
    (r c x y : Nat) (hx : x < rows) (hy : y < cols) :
    contribution g r c x y = if ¬ (x = r ∧ y = c) ∧ (A x ∧ B y) then 1 else 0 := by
  unfold contribution
  have h := hlive x hx y hy
  by_cases hp : ¬ (x = r ∧ y = c) ∧ g.cellAt x y = true
  · rw [if_pos hp, if_pos ⟨hp.1, h.mp hp.2⟩]
  · rw [if_neg hp, if_neg (fun hq => hp ⟨hq.1, h.mpr hq.2⟩)]

theorem contributions_product (g : GameOfLife) (rows cols : Nat) (A B : Nat → Prop)
    [DecidablePred A] [DecidablePred B]
    (hlive : ∀ x, x < rows → ∀ y, y < cols → (g.cellAt x y = true ↔ A x ∧ B y))
    (r c : Nat) (hr : r < rows) (hc : c < cols) :
    contribution g r c (before rows r) (before cols c)
        + contribution g r c (before rows r) c
        + contribution g r c (before rows r) (after cols c)
        + contribution g r c r (before cols c)
        + contribution g r c r c
        + contribution g r c r (after cols c)
        + contribution g r c (after rows r) (before cols c)
        + contribution g r c (after rows r) c
        + contribution g r c (after rows r) (after cols c)
        + (if A r ∧ B c then selfCount rows * selfCount cols else 0)
      = cnt3 A rows r * cnt3 B cols c := by
  have hx1 := before_lt rows r hr
  have hx2 := after_lt rows r hr
  have hy1 := before_lt cols c hc
  have hy2 := after_lt cols c hc
  rw [contribution_of_product g rows cols A B hlive r c _ _ hx1 hy1,
    contribution_of_product g rows cols A B hlive r c _ _ hx1 hc,
    contribution_of_product g rows cols A B hlive r c _ _ hx1 hy2,
    contribution_of_product g rows cols A B hlive r c _ _ hr hy1,
    contribution_of_product g rows cols A B hlive r c _ _ hr hc,
    contribution_of_product g rows cols A B hlive r c _ _ hr hy2,
    contribution_of_product g rows cols A B hlive r c _ _ hx2 hy1,
    contribution_of_product g rows cols A B hlive r c _ _ hx2 hc,
    contribution_of_product g rows cols A B hlive r c _ _ hx2 hy2]
  unfold cnt3 selfCount
  have hrow := before_after_self rows r hr
  have hcol := before_after_self cols c hc
  generalize before rows r = x1 at hrow ⊢
  generalize after rows r = x2 at hrow ⊢
  generalize before cols c = y1 at hcol ⊢
  generalize after cols c = y2 at hcol ⊢
  rcases hrow with ⟨hn, e1, e2⟩ | ⟨hn, e1, e2⟩ <;>
    rcases hcol with ⟨hm, f1, f2⟩ | ⟨hm, f1, f2⟩
  · rw [e1, e2, f1, f2]
    by_cases ha : A r <;> by_cases hb : B c <;> simp [ha, hb, hn, hm]
  · rw [e1, e2]
    by_cases ha : A r <;> by_cases hb1 : B y1 <;> by_cases hb : B c <;>
      by_cases hb2 : B y2 <;> simp [ha, hb1, hb, hb2, hn, hm, f1, f2]
  · rw [f1, f2]
    by_cases ha1 : A x1 <;> by_cases ha : A r <;> by_cases ha2 : A x2 <;>
      by_cases hb : B c <;> simp [ha1, ha, ha2, hb, hn, hm, e1, e2]
  · by_cases ha1 : A x1 <;> by_cases ha : A r <;> by_cases ha2 : A x2 <;>
      by_cases hb1 : B y1 <;> by_cases hb : B c <;> by_cases hb2 : B y2 <;>
      simp [ha1, ha, ha2, hb1, hb, hb2, hn, hm, e1, e2, f1, f2]

theorem wrappedNeighborCount_product (g : GameOfLife) (rows cols : Nat) (A B : Nat → Prop)
    [DecidablePred A] [DecidablePred B]
    (hlive : ∀ x, x < rows → ∀ y, y < cols → (g.cellAt x y = true ↔ A x ∧ B y))
    (r c : Nat) (hr : r < rows) (hc : c < cols) :
    g.wrappedNeighborCount rows cols r c
        + (if A r ∧ B c then selfCount rows * selfCount cols else 0)
      = cnt3 A rows r * cnt3 B cols c := by
  rw [wrappedNeighborCount_eq_contributions g rows cols r c hr hc]
  exact contributions_product g rows cols A B hlive r c hr hc

theorem cellAt_update_iff (g : GameOfLife) (rows cols : Nat) (hrows : 1 ≤ rows)
    (hcols : 1 ≤ cols) (hg : g.Rect rows cols) (hrowsI : rows ≤ 2147483647) (hcolsI : cols ≤ 2147483647)
    (r c : Nat) (hr : r < rows) (hc : c < cols) :
    g.update.cellAt r c = true ↔
      (g.cellAt r c = true ∧
          (g.wrappedNeighborCount rows cols r c = 2 ∨ g.wrappedNeighborCount rows cols r c = 3)) ∨
        (g.cellAt r c = false ∧ g.wrappedNeighborCount rows cols r c = 3) := by
  rw [cellAt_update g rows cols hrows hg hrowsI hcolsI r c hr hc]
  unfold nextValue
  rw [cellAtInt_natCast, neighborCount_eq_wrapped g rows cols hrows hcols hg hrowsI hcolsI]
  cases hcell : g.cellAt r c
  · by_cases h3 : g.wrappedNeighborCount rows cols r c = 3
    · simp [h3]
    · have h3i : ¬ ((g.wrappedNeighborCount rows cols r c : Int) = 3) := by omega
      simp [h3, h3i]
  · by_cases h : (g.wrappedNeighborCount rows cols r c : Int) < 2 ∨
        (g.wrappedNeighborCount rows cols r c : Int) > 3
    · have hno : ¬ (g.wrappedNeighborCount rows cols r c = 2 ∨
          g.wrappedNeighborCount rows cols r c = 3) := by omega
      simp [h, hno]
      omega
    · have hyes : g.wrappedNeighborCount rows cols r c = 2 ∨
          g.wrappedNeighborCount rows cols r c = 3 := by omega
      simp [h, hyes]
      omega

theorem update_product (g : GameOfLife) (rows cols : Nat) (hrows : 2 ≤ rows) (hcols : 2 ≤ cols)
    (hg : g.Rect rows cols) (hrowsI : rows ≤ 2147483647) (hcolsI : cols ≤ 2147483647)
    (A B : Nat → Prop) [DecidablePred A] [DecidablePred B]
    (hlive : ∀ x, x < rows → ∀ y, y < cols → (g.cellAt x y = true ↔ A x ∧ B y))
    (r c : Nat) (hr : r < rows) (hc : c < cols) :
    g.update.cellAt r c = true ↔
      ((A r ∧ B c) ∧ (cnt3 A rows r * cnt3 B cols c = 3 ∨ cnt3 A rows r * cnt3 B cols c = 4)) ∨
        (¬ (A r ∧ B c) ∧ cnt3 A rows r * cnt3 B cols c = 3) := by
  rw [cellAt_update_iff g rows cols (by omega) (by omega) hg hrowsI hcolsI r c hr hc]
  have hprod := wrappedNeighborCount_product g rows cols A B hlive r c hr hc
  have hself : selfCount rows * selfCount cols = 1 := by
    unfold selfCount
    rw [if_neg (by omega), if_neg (by omega)]
  rw [hself] at hprod
  have hcell := hlive r hr c hc
  generalize cnt3 A rows r * cnt3 B cols c = pq at hprod ⊢
  generalize g.wrappedNeighborCount rows cols r c = w at hprod ⊢
  by_cases hAB : A r ∧ B c
  · rw [if_pos hAB] at hprod
    have htrue : g.cellAt r c = true := hcell.mpr hAB
    constructor
    · rintro (⟨_, h2⟩ | ⟨h1, _⟩)
      · exact Or.inl ⟨hAB, by omega⟩
      · rw [htrue] at h1
        exact absurd h1 (by decide)
    · rintro (⟨_, h2⟩ | ⟨h1, _⟩)
      · exact Or.inl ⟨htrue, by omega⟩
      · exact absurd hAB h1
  · rw [if_neg hAB] at hprod
    have hfalse : g.cellAt r c = false := by
      cases hv : g.cellAt r c
      · rfl
      · exact absurd (hcell.mp hv) hAB
    constructor
    · rintro (⟨h1, _⟩ | ⟨_, h2⟩)
      · rw [hfalse] at h1
        exact absurd h1 (by decide)
      · exact Or.inr ⟨hAB, by omega⟩
    · rintro (⟨h1, _⟩ | ⟨_, h2⟩)
      · exact absurd h1 hAB
      · exact Or.inr ⟨hfalse, by omega⟩

/-! ## The blinker -/

theorem cnt3_point (n r : Nat) (hn : 5 ≤ n) (hr : r < n) :
    cnt3 (fun x => x = 2) n r = if 1 ≤ r ∧ r ≤ 3 then 1 else 0 := by
  unfold cnt3 before after
  split_ifs <;> omega

theorem cnt3_band (n r : Nat) (hn : 5 ≤ n) (hr : r < n) :
    cnt3 (fun x => 1 ≤ x ∧ x ≤ 3) n r =
      if r = 2 then 3 else if r = 1 ∨ r = 3 then 2 else if r = 0 ∨ r = 4 then 1 else 0 := by
  unfold cnt3 before after
  split_ifs <;> omega

theorem blinker_horizontal_step (g : GameOfLife) (rows cols : Nat) (hrows : 5 ≤ rows)
    (hcols : 5 ≤ cols) (hg : g.Rect rows cols) (hrowsI : rows ≤ 2147483647) (hcolsI : cols ≤ 2147483647)
    (hlive : g.LiveExactly rows cols [(2, 1), (2, 2), (2, 3)]) :
    g.update.LiveExactly rows cols [(1, 2), (2, 2), (3, 2)] := by
  have hprod : ∀ x, x < rows → ∀ y, y < cols →
      (g.cellAt x y = true ↔ (fun x => x = 2) x ∧ (fun y => 1 ≤ y ∧ y ≤ 3) y) := by
    intro x hx y hy
    rw [hlive x hx y hy]
    simp only [List.mem_cons, Prod.mk.injEq, List.mem_singleton, List.not_mem_nil, or_false]
    omega
  intro x hx y hy
  rw [update_product g rows cols (by omega) (by omega) hg hrowsI hcolsI _ _ hprod x y hx hy]
  simp only [List.mem_cons, Prod.mk.injEq, List.mem_singleton, List.not_mem_nil, or_false]
  have hP := cnt3_point rows x hrows hx
  have hQ := cnt3_band cols y hcols hy
  generalize cnt3 (fun x => x = 2) rows x = p at hP ⊢
  generalize cnt3 (fun y => 1 ≤ y ∧ y ≤ 3) cols y = q at hQ ⊢
  split_ifs at hP hQ <;> subst hP hQ <;> omega

theorem blinker_vertical_step (g : GameOfLife) (rows cols : Nat) (hrows : 5 ≤ rows)
    (hcols : 5 ≤ cols) (hg : g.Rect rows cols) (hrowsI : rows ≤ 2147483647) (hcolsI : cols ≤ 2147483647)
    (hlive : g.LiveExactly rows cols [(1, 2), (2, 2), (3, 2)]) :
    g.update.LiveExactly rows cols [(2, 1), (2, 2), (2, 3)] := by
  have hprod : ∀ x, x < rows → ∀ y, y < cols →
      (g.cellAt x y = true ↔ (fun x => 1 ≤ x ∧ x ≤ 3) x ∧ (fun y => y = 2) y) := by
    intro x hx y hy
    rw [hlive x hx y hy]
    simp only [List.mem_cons, Prod.mk.injEq, List.mem_singleton, List.not_mem_nil, or_false]
    omega
  intro x hx y hy
  rw [update_product g rows cols (by omega) (by omega) hg hrowsI hcolsI _ _ hprod x y hx hy]
  simp only [List.mem_cons, Prod.mk.injEq, List.mem_singleton, List.not_mem_nil, or_false]
  have hP := cnt3_band rows x hrows hx
  have hQ := cnt3_point cols y hcols hy
  generalize cnt3 (fun x => 1 ≤ x ∧ x ≤ 3) rows x = p at hP ⊢
  generalize cnt3 (fun y => y = 2) cols y = q at hQ ⊢
  split_ifs at hP hQ <;> subst hP hQ <;> omega

/-- C12, as amended: on every grid with `5 <= rows <= 2^31 - 1` and
`5 <= cols <= 2^31 - 1` (both dimensions fit in an `int`) whose live cells are exactly
`(2,1)`, `(2,2)`, `(2,3)`, one `update()` yields a grid whose live cells are exactly
`(1,2)`, `(2,2)`, `(3,2)`, and a second `update()` yields a grid whose live cells are
again exactly `(2,1)`, `(2,2)`, `(2,3)`. -/
theorem blinker_oscillates (g : GameOfLife) (rows cols : Nat) (hrows : 5 ≤ rows)
    (hcols : 5 ≤ cols) (hg : g.Rect rows cols) (hrowsI : rows ≤ 2147483647) (hcolsI : cols ≤ 2147483647)
    (hlive : g.LiveExactly rows cols [(2, 1), (2, 2), (2, 3)]) :
    g.update.LiveExactly rows cols [(1, 2), (2, 2), (3, 2)] ∧
      g.update.update.LiveExactly rows cols [(2, 1), (2, 2), (2, 3)] :=
  ⟨blinker_horizontal_step g rows cols hrows hcols hg hrowsI hcolsI hlive,
    blinker_vertical_step g.update rows cols hrows hcols (rect_update hg) hrowsI hcolsI
      (blinker_horizontal_step g rows cols hrows hcols hg hrowsI hcolsI hlive)⟩

theorem blinker_oscillates_witness :
    (blinker.Rect 5 5 ∧ blinker.LiveExactly 5 5 [(2, 1), (2, 2), (2, 3)]) ∧
      blinker.update.LiveExactly 5 5 [(1, 2), (2, 2), (3, 2)] ∧
      blinker.update.update.LiveExactly 5 5 [(2, 1), (2, 2), (2, 3)] :=
  ⟨by decide,
    blinker_oscillates blinker 5 5 (by decide) (by decide) (by decide) (by decide) (by decide)
      (by decide)⟩

/-! ## The block -/

theorem cnt3_pair (n k r : Nat) (hn : 4 ≤ n) (hk : k + 1 < n) (hr : r < n) :
    ((k ≤ r ∧ r ≤ k + 1) → cnt3 (fun x => k ≤ x ∧ x ≤ k + 1) n r = 2) ∧
      (¬ (k ≤ r ∧ r ≤ k + 1) → cnt3 (fun x => k ≤ x ∧ x ≤ k + 1) n r ≤ 1) := by
  unfold cnt3 before after
  split_ifs <;> omega

theorem block_step (g : GameOfLife) (rows cols : Nat) (hrows : 4 ≤ rows) (hcols : 4 ≤ cols)
    (hg : g.Rect rows cols) (hrowsI : rows ≤ 2147483647) (hcolsI : cols ≤ 2147483647)
    (r c : Nat) (hr : r + 1 < rows) (hc : c + 1 < cols)
    (hlive : g.LiveExactly rows cols [(r, c), (r, c + 1), (r + 1, c), (r + 1, c + 1)])
    (x y : Nat) (hx : x < rows) (hy : y < cols) :
    g.update.cellAt x y = true ↔ g.cellAt x y = true := by
  have hprod : ∀ x, x < rows → ∀ y, y < cols →
      (g.cellAt x y = true ↔
        (fun x => r ≤ x ∧ x ≤ r + 1) x ∧ (fun y => c ≤ y ∧ y ≤ c + 1) y) := by
    intro x hx y hy
    rw [hlive x hx y hy]
    simp only [List.mem_cons, Prod.mk.injEq, List.mem_singleton, List.not_mem_nil, or_false]
    omega
  rw [update_product g rows cols (by omega) (by omega) hg hrowsI hcolsI _ _ hprod x y hx hy,
    hprod x hx y hy]
  have hP := cnt3_pair rows r x hrows hr hx
  have hQ := cnt3_pair cols c y hcols hc hy
  generalize cnt3 (fun x => r ≤ x ∧ x ≤ r + 1) rows x = p at hP ⊢
  generalize cnt3 (fun y => c ≤ y ∧ y ≤ c + 1) cols y = q at hQ ⊢
  simp only
  by_cases hA : r ≤ x ∧ x ≤ r + 1
  · by_cases hB : c ≤ y ∧ y ≤ c + 1
    · have hp : p = 2 := hP.1 hA
      have hq : q = 2 := hQ.1 hB
      subst hp hq
      omega
    · have hp : p = 2 := hP.1 hA
      have hq : q ≤ 1 := hQ.2 hB
      subst hp
      omega
  · have hp : p ≤ 1 := hP.2 hA
    have hq : q ≤ 2 := by
      by_cases hB : c ≤ y ∧ y ≤ c + 1
      · exact le_of_eq (hQ.1 hB)
      · exact le_trans (hQ.2 hB) (by decide)
    have hpq : p * q ≤ 2 := by nlinarith
    generalize p * q = pq at hpq ⊢
    omega

/-- C13, as amended: on every grid with `4 <= rows <= 2^31 - 1` and
`4 <= cols <= 2^31 - 1` (both dimensions fit in an `int`), for every `(r, c)` with
`r + 1 < rows` and `c + 1 < cols`, if the live cells are exactly `(r,c)`, `(r,c+1)`,
`(r+1,c)`, `(r+1,c+1)`, then `update()` leaves every cell of the grid unchanged. -/
theorem block_still (g : GameOfLife) (rows cols : Nat) (hrows : 4 ≤ rows) (hcols : 4 ≤ cols)
    (hg : g.Rect rows cols) (hrowsI : rows ≤ 2147483647) (hcolsI : cols ≤ 2147483647)
    (r c : Nat) (hr : r + 1 < rows) (hc : c + 1 < cols)
    (hlive : g.LiveExactly rows cols [(r, c), (r, c + 1), (r + 1, c), (r + 1, c + 1)]) :
    ∀ x y, g.update.cellAt x y = g.cellAt x y := by
  intro x y
  by_cases hin : x < rows ∧ y < cols
  · rw [Bool.eq_iff_iff]
    exact block_step g rows cols hrows hcols hg hrowsI hcolsI r c hr hc hlive x y hin.1 hin.2
  · rw [cellAt_outside g.update rows cols (rect_update hg) x y hin,
      cellAt_outside g rows cols hg x y hin]

theorem block_still_witness :
    (block.Rect 4 4 ∧ block.LiveExactly 4 4 [(1, 1), (1, 1 + 1), (1 + 1, 1), (1 + 1, 1 + 1)]) ∧
      block.update.cellAt 1 1 = block.cellAt 1 1 ∧
      block.update.cellAt 0 3 = block.cellAt 0 3 :=
  ⟨by decide,
    block_still block 4 4 (by decide) (by decide) (by decide) (by decide) (by decide)
      1 1 (by decide) (by decide) (by decide) 1 1,
    block_still block 4 4 (by decide) (by decide) (by decide) (by decide) (by decide)
      1 1 (by decide) (by decide) (by decide) 0 3⟩

/-! ## Symmetry of the neighbour relation -/

theorem before_eq_iff (n r a : Nat) (hr : r < n) (ha : a < n) :
    before n r = a ↔ after n a = r := by
  unfold before after
  split_ifs <;> omega

theorem cnt3_symm (n r a : Nat) (hr : r < n) (ha : a < n) :
    cnt3 (fun x => x = a) n r = cnt3 (fun x => x = r) n a := by
  have h1 : (if before n r = a then 1 else 0) = (if after n a = r then 1 else 0) :=
    if_congr (before_eq_iff n r a hr ha) rfl rfl
  have h2 : (if r = a then 1 else 0) = (if a = r then 1 else 0) :=
    if_congr eq_comm rfl rfl
  have h3 : (if after n r = a then 1 else 0) = (if before n a = r then 1 else 0) :=
    if_congr (before_eq_iff n a r ha hr).symm rfl rfl
  unfold cnt3
  dsimp only
  rw [h1, h2, h3]
  omega

theorem liveExactly_single (g : GameOfLife) (rows cols a b : Nat)
    (h : g.LiveExactly rows cols [(a, b)]) :
    ∀ x, x < rows → ∀ y, y < cols →
      (g.cellAt x y = true ↔ (fun x => x = a) x ∧ (fun y => y = b) y) := by
  intro x hx y hy
  rw [h x hx y hy]
  simp only [List.mem_singleton, Prod.mk.injEq]

/-- C17, as amended: on grids with `1 <= rows <= 2^31 - 1` and `1 <= cols <= 2^31 - 1`
(both dimensions fit in an `int`), for two in-range cells `(a, b)` and `(r, c)`,
`neighborCount(r, c)` on the grid whose only live cell is `(a, b)` equals
`neighborCount(a, b)` on the grid of the same dimensions whose only live cell is
`(r, c)`. -/
theorem neighborCount_symm (g1 g2 : GameOfLife) (rows cols : Nat) (hrows : 1 ≤ rows)
    (hcols : 1 ≤ cols) (hg1 : g1.Rect rows cols) (hg2 : g2.Rect rows cols)
    (hrowsI : rows ≤ 2147483647) (hcolsI : cols ≤ 2147483647)
    (a b r c : Nat) (ha : a < rows) (hb : b < cols) (hr : r < rows) (hc : c < cols)
    (h1 : g1.LiveExactly rows cols [(a, b)]) (h2 : g2.LiveExactly rows cols [(r, c)]) :
    g1.neighborCount r c = g2.neighborCount a b := by
  rw [neighborCount_eq_wrapped g1 rows cols hrows hcols hg1 hrowsI hcolsI,
    neighborCount_eq_wrapped g2 rows cols hrows hcols hg2 hrowsI hcolsI]
  congr 1
  have e1 := wrappedNeighborCount_product g1 rows cols _ _
    (liveExactly_single g1 rows cols a b h1) r c hr hc
  have e2 := wrappedNeighborCount_product g2 rows cols _ _
    (liveExactly_single g2 rows cols r c h2) a b ha hb
  rw [cnt3_symm rows r a hr ha, cnt3_symm cols c b hc hb] at e1
  generalize cnt3 (fun x => x = r) rows a * cnt3 (fun x => x = c) cols b = pq at e1 e2
  generalize selfCount rows * selfCount cols = s at e1 e2
  by_cases hsame : r = a ∧ c = b
  · rw [if_pos hsame] at e1
    rw [if_pos ⟨hsame.1.symm, hsame.2.symm⟩] at e2
    omega
  · rw [if_neg hsame] at e1
    rw [if_neg (fun h => hsame ⟨h.1.symm, h.2.symm⟩)] at e2
    omega

theorem neighborCount_symm_witness :
    (((construct 2 3).growCellAt 0 1).LiveExactly 2 3 [(0, 1)] ∧
        ((construct 2 3).growCellAt 1 2).LiveExactly 2 3 [(1, 2)]) ∧
      ((construct 2 3).growCellAt 0 1).neighborCount ((1 : Nat) : Int) ((2 : Nat) : Int)
        = ((construct 2 3).growCellAt 1 2).neighborCount ((0 : Nat) : Int) ((1 : Nat) : Int) :=
  ⟨by decide,
    neighborCount_symm ((construct 2 3).growCellAt 0 1) ((construct 2 3).growCellAt 1 2) 2 3
      (by decide) (by decide) (by decide) (by decide) (by decide) (by decide) 0 1 1 2
      (by decide) (by decide) (by decide) (by decide) (by decide) (by decide)⟩

/-! ## Grids whose dimensions do not fit in an int -/

theorem rowLength_of_rect {g : GameOfLife} {rows cols : Nat} (hg : g.Rect rows cols)
    (r : Nat) : (g.theSociety.getD r []).length = if r < rows then cols else 0 := by
  by_cases hr : r < rows
  · rw [if_pos hr, hg.rowLength hr]
  · rw [if_neg hr, List.getD_eq_default _ _ (by rw [hg.1]; omega)]
    rfl

theorem cellAt_growCellAt_iff {g : GameOfLife} {rows cols : Nat} (hg : g.Rect rows cols)
    (r c x y : Nat) :
    (g.growCellAt r c).cellAt x y = true ↔
      g.cellAt x y = true ∨ (x = r ∧ y = c ∧ r < rows ∧ c < cols) := by
  rw [cellAt_eq_peek, cellAt_eq_peek, growCellAt_theSociety, peek_assign, rowLength_of_rect hg]
  by_cases hpos : x = r ∧ y = c ∧ c < (if r < rows then cols else 0)
  · rw [if_pos hpos]
    have hr : r < rows := by
      by_contra hn
      rw [if_neg hn] at hpos
      omega
    rw [if_pos hr] at hpos
    exact ⟨fun _ => Or.inr ⟨hpos.1, hpos.2.1, hr, hpos.2.2⟩, fun _ => rfl⟩
  · rw [if_neg hpos]
    constructor
    · exact fun h => Or.inl h
    · rintro (h | ⟨h1, h2, h3, h4⟩)
      · exact h
      · exact absurd ⟨h1, h2, by rw [if_pos h3]; exact h4⟩ hpos

theorem seeding_spec {g : GameOfLife} {rows cols : Nat} (hg : g.Rect rows cols)
    (cells : List (Nat × Nat)) :
    (cells.foldl (fun g p => g.growCellAt p.1 p.2) g).Rect rows cols ∧
      ∀ x y, (cells.foldl (fun g p => g.growCellAt p.1 p.2) g).cellAt x y = true ↔
        g.cellAt x y = true ∨ ((x, y) ∈ cells ∧ x < rows ∧ y < cols) := by
  induction cells generalizing g with
  | nil => exact ⟨hg, fun x y => by simp⟩
  | cons p cells ih =>
    obtain ⟨hrect, hcell⟩ := ih (rect_growCellAt hg p.1 p.2)
    refine ⟨hrect, fun x y => ?_⟩
    rw [List.foldl_cons, hcell x y, cellAt_growCellAt_iff hg, List.mem_cons, Prod.ext_iff]
    constructor
    · rintro ((h | ⟨h1, h2, _, _⟩) | ⟨h, hx, hy⟩)
      · exact Or.inl h
      · exact Or.inr ⟨Or.inl ⟨h1, h2⟩, by omega, by omega⟩
      · exact Or.inr ⟨Or.inr h, hx, hy⟩
    · rintro (h | ⟨h | h, hx, hy⟩)
      · exact Or.inl (Or.inl h)
      · exact Or.inl (Or.inr ⟨h.1, h.2, by rw [← h.1]; exact hx, by rw [← h.2]; exact hy⟩)
      · exact Or.inr ⟨h, hx, hy⟩

theorem rect_seeded (rows cols : Nat) (cells : List (Nat × Nat)) :
    (seeded rows cols cells).Rect rows cols :=
  (seeding_spec (rect_construct rows cols) cells).1

theorem cellAt_seeded (rows cols : Nat) (cells : List (Nat × Nat)) (x y : Nat) :
    (seeded rows cols cells).cellAt x y = true ↔ (x, y) ∈ cells ∧ x < rows ∧ y < cols := by
  unfold seeded
  rw [(seeding_spec (rect_construct rows cols) cells).2 x y, cellAt_eq_peek, peek_construct]
  simp

theorem liveExactly_seeded (rows cols : Nat) (cells : List (Nat × Nat)) :
    (seeded rows cols cells).LiveExactly rows cols cells := by
  intro x hx y hy
  rw [cellAt_seeded]
  exact ⟨fun h => h.1, fun h => ⟨h, hx, hy⟩⟩

theorem cellAtInt_seeded (rows cols : Nat) (cells : List (Nat × Nat)) (x y : Int) :
    (seeded rows cols cells).cellAtInt x y = seededAt rows cols cells x y := by
  unfold cellAtInt seededAt
  rw [Bool.eq_iff_iff]
  by_cases hneg : x < 0 ∨ y < 0
  · rw [if_pos hneg]
    simp only [decide_eq_true_eq]
    constructor
    · intro h
      exact absurd h (by decide)
    · rintro ⟨h1, h2, _⟩
      omega
  · rw [if_neg hneg, cellAt_seeded]
    simp only [decide_eq_true_eq]
    constructor
    · exact fun h => ⟨by omega, by omega, h⟩
    · exact fun h => h.2.2

theorem visitCount_seeded (rows cols : Nat) (cells : List (Nat × Nat))
    (maxRow maxCol row col : Int) :
    (seeded rows cols cells).visitCount maxRow maxCol row col =
      seededVisitCount rows cols cells maxRow maxCol row col := by
  unfold visitCount seededVisitCount
  simp only [cellAtInt_seeded]

theorem neighborCount_seeded (rows cols : Nat) (hrows : 1 ≤ rows) (cells : List (Nat × Nat))
    (row col : Int) :
    (seeded rows cols cells).neighborCount row col =
      (seededVisitCount rows cols cells (toInt32 ((rows : Int) - 1))
        (toInt32 ((cols : Int) - 1)) row col : Int) := by
  rw [neighborCount_eq_visitCount, (rect_seeded rows cols cells).1,
    (rect_seeded rows cols cells).rowLength (show 0 < rows by omega), visitCount_seeded]

theorem cellAt_update_seeded (rows cols : Nat) (hrows : 1 ≤ rows) (cells : List (Nat × Nat))
    (r c : Nat) :
    (seeded rows cols cells).update.cellAt r c =
      if r < (toInt32 (rows : Int)).toNat ∧ c < (toInt32 (cols : Int)).toNat then
        nextValue (seeded rows cols cells) r c ((seeded rows cols cells).cellAt r c)
      else (seeded rows cols cells).cellAt r c :=
  cellAt_update_loops _ rows cols hrows (rect_seeded rows cols cells) r c

/-- C1 as stated fails on a grid too wide for an `int`.  On the grid of one row and
`2^31` columns whose only live cell is `(0, 0)`, `numCols` is negative, the loops of
`update()` write nothing, and the cell stays live although its neighbour count is 0. -/
theorem update_rule_fails_wide :
    wideCell.Rect 1 2147483648 ∧ wideCell.cellAt 0 0 = true ∧
      wideCell.neighborCount 0 0 = 0 ∧ wideCell.update.cellAt 0 0 = true ∧
      ¬ (wideCell.update.cellAt 0 0 = true ↔
        (wideCell.cellAt 0 0 = true ∧
            (wideCell.neighborCount 0 0 = 2 ∨ wideCell.neighborCount 0 0 = 3)) ∨
          (wideCell.cellAt 0 0 = false ∧ wideCell.neighborCount 0 0 = 3)) := by
  have hcell : wideCell.cellAt 0 0 = true :=
    (cellAt_seeded 1 2147483648 [(0, 0)] 0 0).mpr (by decide)
  have hn : wideCell.neighborCount 0 0 = 0 := by
    unfold wideCell
    rw [neighborCount_seeded 1 2147483648 (by decide)]
    decide
  have hupd : wideCell.update.cellAt 0 0 = true := by
    unfold wideCell
    rw [cellAt_update_seeded 1 2147483648 (by decide), if_neg (by decide)]
    exact hcell
  refine ⟨rect_seeded 1 2147483648 [(0, 0)], hcell, hn, hupd, ?_⟩
  intro h
  rw [hn] at h
  rcases h.mp hupd with ⟨_, h2 | h3⟩ | ⟨_, h3⟩ <;> omega

/-- C3 as stated fails on a grid too wide for an `int`.  On the grid of one row and
`2^31 + 1` columns whose only live cell is `(0, 0)`, `maxCol` is negative, every
visited column wraps to column 0, and `neighborCount(0, 5)` is 9. -/
theorem neighborCount_bounds_fails_wide :
    widerCell.Rect 1 2147483649 ∧ (0 : Nat) < 1 ∧ (5 : Nat) < 2147483649 ∧
      widerCell.neighborCount 0 5 = 9 ∧ ¬ (widerCell.neighborCount 0 5 ≤ 8) := by
  have hn : widerCell.neighborCount 0 5 = 9 := by
    unfold widerCell
    rw [neighborCount_seeded 1 2147483649 (by decide)]
    decide
  refine ⟨rect_seeded 1 2147483649 [(0, 0)], by decide, by decide, hn, ?_⟩
  rw [hn]
  decide

/-- C12 as stated fails on a grid too wide for an `int`.  On the grid of 5 rows and
`2^31` columns whose live cells are exactly `(2,1)`, `(2,2)`, `(2,3)`, `numCols` is
negative and `update()` writes nothing: `(2,1)` is still live afterwards, so the live
cells are not `(1,2)`, `(2,2)`, `(3,2)`. -/
theorem blinker_fails_wide :
    wideBlinker.Rect 5 2147483648 ∧
      wideBlinker.LiveExactly 5 2147483648 [(2, 1), (2, 2), (2, 3)] ∧
      wideBlinker.update.cellAt 2 1 = true ∧
      ¬ wideBlinker.update.LiveExactly 5 2147483648 [(1, 2), (2, 2), (3, 2)] := by
  have hupd : wideBlinker.update.cellAt 2 1 = true := by
    unfold wideBlinker
    rw [cellAt_update_seeded 5 2147483648 (by decide), if_neg (by decide)]
    exact (cellAt_seeded 5 2147483648 _ 2 1).mpr (by decide)
  refine ⟨rect_seeded 5 2147483648 _, liveExactly_seeded 5 2147483648 _, hupd, ?_⟩
  intro h
  exact absurd ((h 2 (by decide) 1 (by decide)).mp hupd) (by decide)

/-- C13 as stated fails on a grid too wide for an `int`.  On the grid of 4 rows and
`2^32 + 4` columns whose live cells are exactly the block `(1,3)`, `(1,4)`, `(2,3)`,
`(2,4)`, `numCols` is 4 and `maxCol` is 3: `neighborCount(1, 3)` is 1 and `update()`
kills the live cell `(1, 3)`. -/
theorem block_fails_wide :
    wideBlock.Rect 4 4294967300 ∧ (1 + 1 < 4 ∧ 3 + 1 < 4294967300) ∧
      wideBlock.LiveExactly 4 4294967300 [(1, 3), (1, 3 + 1), (1 + 1, 3), (1 + 1, 3 + 1)] ∧
      wideBlock.neighborCount 1 3 = 1 ∧
      wideBlock.cellAt 1 3 = true ∧ wideBlock.update.cellAt 1 3 = false ∧
      ¬ (wideBlock.update.cellAt 1 3 = wideBlock.cellAt 1 3) := by
  have hcell : wideBlock.cellAt 1 3 = true :=
    (cellAt_seeded 4 4294967300 _ 1 3).mpr (by decide)
  have hn : wideBlock.neighborCount 1 3 = 1 := by
    unfold wideBlock
    rw [neighborCount_seeded 4 4294967300 (by decide)]
    decide
  have hupd : wideBlock.update.cellAt 1 3 = false := by
    have hn' : wideBlock.neighborCount ((1 : Nat) : Int) ((3 : Nat) : Int) = 1 := hn
    have hc' : wideBlock.cellAtInt ((1 : Nat) : Int) ((3 : Nat) : Int) = true := by
      rw [cellAtInt_natCast]
      exact hcell
    have hstep : wideBlock.update.cellAt 1 3 = nextValue wideBlock 1 3 (wideBlock.cellAt 1 3) := by
      unfold wideBlock
      rw [cellAt_update_seeded 4 4294967300 (by decide), if_pos (by decide)]
    rw [hstep]
    unfold nextValue
    rw [hc', hn']
    decide
  refine ⟨rect_seeded 4 4294967300 _, by decide, liveExactly_seeded 4 4294967300 _, hn, hcell,
    hupd, ?_⟩
  rw [hupd, hcell]
  decide

/-- C17 as stated fails on a grid too wide for an `int`.  On grids of one row and
`2^31 + 1` columns, `neighborCount(0, 5)` with only `(0, 0)` live is 9, while
`neighborCount(0, 0)` with only `(0, 5)` live is 0. -/
theorem neighborCount_symm_fails_wide :
    (widerCell.Rect 1 2147483649 ∧ widerCellAtFive.Rect 1 2147483649) ∧
      (widerCell.LiveExactly 1 2147483649 [(0, 0)] ∧
        widerCellAtFive.LiveExactly 1 2147483649 [(0, 5)]) ∧
      widerCell.neighborCount 0 5 = 9 ∧ widerCellAtFive.neighborCount 0 0 = 0 ∧
      ¬ (widerCell.neighborCount 0 5 = widerCellAtFive.neighborCount 0 0) := by
  have h1 : widerCell.neighborCount 0 5 = 9 := by
    unfold widerCell
    rw [neighborCount_seeded 1 2147483649 (by decide)]
    decide
  have h2 : widerCellAtFive.neighborCount 0 0 = 0 := by
    unfold widerCellAtFive
    rw [neighborCount_seeded 1 2147483649 (by decide)]
    decide
  refine ⟨⟨rect_seeded 1 2147483649 _, rect_seeded 1 2147483649 _⟩,
    ⟨liveExactly_seeded 1 2147483649 _, liveExactly_seeded 1 2147483649 _⟩, h1, h2, ?_⟩
  rw [h1, h2]
  decide

/-- C2 as stated fails on a grid with a single row or a single column, and on a grid
too wide for an `int`.  On the 1 by 1 grid with its cell live, and on the 1 by 3 grid
with `(0, 1)` live, the code counts 0 neighbours; the count over the offset pairs other
than `(0, 0)` is 8 and 2.  On the grid of one row and `2^31 + 1` columns with only
`(0, 0)` live, the code counts 9 neighbours at `(0, 5)`; the count over the offset
pairs is 0. -/
theorem neighborCount_ne_specNeighborCount :
    (singleCell.Rect 1 1 ∧ singleCell.neighborCount 0 0 = 0 ∧
        singleCell.specNeighborCount 1 1 0 0 = 8 ∧
        ¬ (singleCell.neighborCount 0 0 = (singleCell.specNeighborCount 1 1 0 0 : Int))) ∧
      (singleRow.Rect 1 3 ∧ singleRow.neighborCount 0 1 = 0 ∧
        singleRow.specNeighborCount 1 3 0 1 = 2 ∧
        ¬ (singleRow.neighborCount 0 1 = (singleRow.specNeighborCount 1 3 0 1 : Int))) ∧
      (widerCell.Rect 1 2147483649 ∧ widerCell.neighborCount 0 5 = 9 ∧
        widerCell.specNeighborCount 1 2147483649 0 5 = 0 ∧
        widerCell.wrappedNeighborCount 1 2147483649 0 5 = 0 ∧
        ¬ (widerCell.neighborCount 0 5 = (widerCell.specNeighborCount 1 2147483649 0 5 : Int))) := by
  have hn : widerCell.neighborCount 0 5 = 9 := by
    unfold widerCell
    rw [neighborCount_seeded 1 2147483649 (by decide)]
    decide
  have hs : widerCell.specNeighborCount 1 2147483649 0 5 = 0 := by
    unfold widerCell specNeighborCount
    simp only [cellAtInt_seeded]
    decide
  have hw : widerCell.wrappedNeighborCount 1 2147483649 0 5 = 0 := by
    unfold widerCell
    rw [wrappedNeighborCount_eq_visitCount, visitCount_seeded]
    decide
  refine ⟨by decide, by decide, rect_seeded 1 2147483649 _, hn, hs, hw, ?_⟩
  rw [hn, hs]
  decide

end GameOfLife
